import Mathlib

/-! AchievementsStatus (src/achievements/achievements_status.cpp)

A shallow embedding of the class `AchievementsStatus` of SuperTuxKart, with
proofs about its counters, its rule recomputation, its persistence and its
synchronisation with the online account.

Conventions of the embedding:

* `int` is a mathematical integer wrapped into the 32-bit signed range where an
  addition can leave it (`wrapInt32`); `uint32_t` / `unsigned int` is a natural
  number with arithmetic taken modulo `2^32` (`wrapUInt32`).
* `std::string` is a list of characters.
* `std::map<uint32_t, Achievement*>` is a list of key/value pairs in iteration
  (ascending key) order.  Objects reached through a pointer are updated in
  place under their key.
* A null-pointer dereference or an out-of-bounds vector write is undefined
  behaviour; the embedding stops there with `Outcome.fault`, carrying the state
  reached so far.
* `PlayerManager::getCurrentAchievementsStatus()` reaches a global object that
  need not be the receiver of the call; a `World` holds the receiver and the
  current player's status, and the rule recomputation and `increaseDataVar`
  run on a `World`.
* Constants declared in headers that are not part of the translated file
  (`ACHIEVE_DATA_NUM`, the counter indices, the two achievement ids,
  `DATA_VERSION`) are fields of `Config`.
* The collaborators whose code is not part of the translated file (class
  Achievement, XMLNode, the outbound request, StringUtils::toString) are
  modelled from the specification; each such definition says so.
-/

namespace STK

/-! ## Machine arithmetic and strings -/

/-- The C++ type std::string, as its sequence of characters. -/
abbrev CppString := List Char

/-- Wrap a mathematical integer into the range of a 32-bit signed `int`
(two's complement). -/
def wrapInt32 (x : Int) : Int := (x + 2147483648) % 4294967296 - 2147483648

/-- Arithmetic on `uint32_t` is modulo `2^32`. -/
def wrapUInt32 (n : Nat) : Nat := n % 4294967296

/-- The upper clamp of `increaseDataVar`, the literal 10000000 of the source. -/
def CAP : Int := 10000000

/-! ## Constants from headers outside the translated file -/

/-- Constants used by achievements_status.cpp and declared elsewhere
(achievements_status.hpp, achievement_info.hpp). -/
structure Config where
  /-- Number of counters, the size of `m_variables`. -/
  ACHIEVE_DATA_NUM : Nat
  ACHIEVE_WON_NORMAL_RACES : Nat
  ACHIEVE_WON_TT_RACES : Nat
  ACHIEVE_WON_FTL_RACES : Nat
  ACHIEVE_CONS_WON_RACES : Nat
  /-- The id `AchievementInfo::ACHIEVE_GOLD_DRIVER`. -/
  ACHIEVE_GOLD_DRIVER : Nat
  /-- The id `AchievementInfo::ACHIEVE_UNSTOPPABLE`. -/
  ACHIEVE_UNSTOPPABLE : Nat
  /-- Version of the saved counter data that `load` accepts. -/
  DATA_VERSION : Int
deriving DecidableEq, Repr

/-- What the enumerations guarantee: the counter indices used by the rules are
below `ACHIEVE_DATA_NUM`, the two achievement ids are different `uint32_t`
values. -/
def Config.WF (cfg : Config) : Prop :=
  cfg.ACHIEVE_WON_NORMAL_RACES < cfg.ACHIEVE_DATA_NUM ∧
  cfg.ACHIEVE_WON_TT_RACES < cfg.ACHIEVE_DATA_NUM ∧
  cfg.ACHIEVE_WON_FTL_RACES < cfg.ACHIEVE_DATA_NUM ∧
  cfg.ACHIEVE_CONS_WON_RACES < cfg.ACHIEVE_DATA_NUM ∧
  cfg.ACHIEVE_GOLD_DRIVER ≠ cfg.ACHIEVE_UNSTOPPABLE ∧
  cfg.ACHIEVE_GOLD_DRIVER < 4294967296 ∧
  cfg.ACHIEVE_UNSTOPPABLE < 4294967296

instance (cfg : Config) : Decidable cfg.WF := by
  unfold Config.WF; infer_instance

/-! ## The collaborator class Achievement -/

/-- Modelled from the spec: class Achievement (achievements/achievement.hpp and
.cpp are not part of the translated file).  Section 3 of the specification: an
achievement is identified by its id, holds named goal sub-counters and a boolean
achieved flag; section 4.4: the thresholds of the goals are part of the
achievement's own definition. -/
structure Achievement where
  /-- The id returned by `getID()`. -/
  id : Nat
  /-- Required goals with their thresholds. -/
  goals : List (String × Int) := []
  /-- Named goal sub-counters. -/
  progress : List (String × Int) := []
  /-- The achieved flag. -/
  achieved : Bool := false
  /-- Whether the goal progress of this achievement is scoped to one race. -/
  resetAfterRace : Bool := false
  /-- Whether the goal progress of this achievement is scoped to one lap. -/
  resetAfterLap : Bool := false
deriving DecidableEq, Repr

namespace Achievement

/-- Modelled from the spec: Achievement::getID(). -/
def getID (a : Achievement) : Nat := a.id

/-- Modelled from the spec: Achievement::isAchieved(), section 4.4, a query. -/
def isAchieved (a : Achievement) : Bool := a.achieved

/-- Modelled from the spec: Achievement::setAchieved(), section 4.4: force-mark
achieved, idempotent. -/
def setAchieved (a : Achievement) : Achievement := { a with achieved := true }

/-- Modelled from the spec: Achievement::reset(), section 4.4: clears all goal
progress, not the achieved flag. -/
def reset (a : Achievement) : Achievement := { a with progress := [] }

/-- Modelled from the spec: the goal sub-counters of section 3, read by name; a
goal without entry has progress 0. -/
def getProgress (a : Achievement) (key : String) : Int :=
  (a.progress.lookup key).getD 0

/-- Modelled from the spec: section 4.4, all required goals meet their
thresholds. -/
def goalsMet (a : Achievement) : Bool :=
  a.goals.all (fun g => decide (g.2 ≤ a.getProgress g.1))

/-- Modelled from the spec: section 4.4, progress toward a named goal is
accumulated: the amount is added to the entry of the goal, which is created
when absent. -/
def accumulate : List (String × Int) → String → Int → List (String × Int)
  | [], key, amount => [(key, amount)]
  | (k, v) :: rest, key, amount =>
      if k = key then (k, v + amount) :: rest else (k, v) :: accumulate rest key amount

/-- Modelled from the spec: Achievement::increase(goalKey, displayKey, amount),
section 4.4: accumulates progress toward a named goal and recomputes the achieved
flag once all required goals meet their thresholds. -/
def increase (a : Achievement) (goalKey _displayKey : String) (amount : Int) :
    Achievement :=
  let b : Achievement := { a with progress := accumulate a.progress goalKey amount }
  if b.goalsMet then { b with achieved := true } else b

/-- Modelled from the spec: Achievement::onRaceEnd(), section 4.4: an event hook
that may reset per-race-scoped goal progress; whether it does is specific to the
achievement. -/
def onRaceEnd (a : Achievement) : Achievement :=
  if a.resetAfterRace then a.reset else a

/-- Modelled from the spec: Achievement::onLapEnd(), section 4.4: an event hook
that may reset per-lap-scoped goal progress; whether it does is specific to the
achievement. -/
def onLapEnd (a : Achievement) : Achievement :=
  if a.resetAfterLap then a.reset else a

end Achievement

/-! ## The persisted format -/

/-- Modelled from the spec: an `achievement` sub-element of the persisted format
(section 6), as XMLNode presents it: the attribute `id` when it is present, and
the persisted sub-state of the achievement (section 4.4, load and save), which
is its achieved flag and its goal progress. -/
structure AchievementNode where
  id : Option Nat
  achieved : Bool
  progress : List (String × Int)
deriving DecidableEq, Repr

/-- Modelled from the spec: the children of the `achievements` element (section
6): per-achievement sub-elements, `data` elements carrying a format version,
`var` elements carrying a counter value, and elements of any other name.  An
integer attribute is `none` when the element does not have it. -/
inductive XMLChild where
  | achievement (n : AchievementNode)
  | data (version : Option Int)
  | var (counter : Option Int)
  | other (name : String)
deriving DecidableEq, Repr

/-- Modelled from the spec: the `achievements` element (section 6) with its
`online` attribute and its children in document order; class XMLNode
(io/xml_node.hpp) and the text written through UTFWriter are not part of the
translated file. -/
structure XMLNode where
  online : Bool
  children : List XMLChild
deriving DecidableEq, Repr

namespace XMLNode

/-- Modelled from the spec: XMLNode::getNodes for the name achievement
(io/xml_node.hpp is not part of the translated file): all children of that
name, in document order. -/
def getNodesAchievement (input : XMLNode) : List AchievementNode :=
  input.children.filterMap (fun c =>
    match c with
    | XMLChild.achievement n => some n
    | _ => none)

/-- Modelled from the spec: XMLNode::getNodes for the name var: the `counter`
attribute of every `var` child, in document order (section 6: one var element
per counter, in counter-index order). -/
def getNodesVar (input : XMLNode) : List (Option Int) :=
  input.children.filterMap (fun c =>
    match c with
    | XMLChild.var v => some v
    | _ => none)

/-- Modelled from the spec: XMLNode::getNode for the name data: the `version`
attribute of the first `data` child, `none` for NULL (section 6: a data element
carrying a format version). -/
def getNodeData (input : XMLNode) : Option (Option Int) :=
  input.children.findSome? (fun c =>
    match c with
    | XMLChild.data v => some v
    | _ => none)

end XMLNode

namespace Achievement

/-- Modelled from the spec: Achievement::save, section 4.4: writes the persisted
sub-state of the achievement. -/
def save (a : Achievement) : AchievementNode :=
  { id := some a.id, achieved := a.achieved, progress := a.progress }

/-- Modelled from the spec: Achievement::load, section 4.4: reads the persisted
sub-state back (round trip with save). -/
def load (a : Achievement) (n : AchievementNode) : Achievement :=
  { a with achieved := n.achieved, progress := n.progress }

end Achievement

/-! ## The state of an AchievementsStatus -/

/-- The data members of class AchievementsStatus: `m_valid`, `m_online`, the
array `m_variables` (the field `counter` of each slot) and the map
`m_achievements`. -/
structure AchievementsStatus where
  m_valid : Bool
  m_online : Bool
  m_variables : List Int
  m_achievements : List (Nat × Achievement)
deriving DecidableEq, Repr

/-- Result of an operation that can run into undefined behaviour; `σ` is the
state the operation works on. -/
inductive Outcome (σ α : Type) where
  /-- The operation returned. -/
  | ok (val : α)
  /-- A null pointer was dereferenced or a vector was written out of bounds;
  `reached` is the state at that point. -/
  | fault (reached : σ)
deriving DecidableEq, Repr

/-- The state an outcome ends in: the value returned, or the state reached at
the fault. -/
def Outcome.state {σ : Type} : Outcome σ σ → σ
  | Outcome.ok s => s
  | Outcome.fault s => s

/-- Whether the operation returned. -/
def Outcome.isOk {σ α : Type} : Outcome σ α → Bool
  | Outcome.ok _ => true
  | Outcome.fault _ => false

/-- Modelled from the spec: StringUtils::toString (utils/string_utils.hpp is not
part of the translated file), the decimal rendering of an id that section 4.5
joins with commas. -/
def StringUtils.toString (id : Nat) : CppString := Nat.toDigits 10 id

namespace AchievementsStatus

/-- The expression `m_variables[i].counter`. -/
def counter (st : AchievementsStatus) (i : Nat) : Int := st.m_variables.getD i 0

/-- The assignment `m_variables[i].counter = v`. -/
def setCounter (st : AchievementsStatus) (i : Nat) (v : Int) : AchievementsStatus :=
  { st with m_variables := st.m_variables.set i v }

/-- Update, through its pointer, the achievement stored under a key (the keys of
a std::map are unique). -/
def modify (st : AchievementsStatus) (id : Nat) (f : Achievement → Achievement) :
    AchievementsStatus :=
  { st with m_achievements :=
      st.m_achievements.map (fun e => if e.1 = id then (e.1, f e.2) else e) }

/-- The constructor AchievementsStatus::AchievementsStatus(). -/
def ctor (cfg : Config) : AchievementsStatus :=
  { m_valid := true
    m_online := true
    m_variables := List.replicate cfg.ACHIEVE_DATA_NUM 0
    m_achievements := [] }

/-- The assignment `m[k] = v` on a std::map kept in ascending key order. -/
def mapAssign : List (Nat × Achievement) → Nat → Achievement → List (Nat × Achievement)
  | [], k, v => [(k, v)]
  | (k0, v0) :: rest, k, v =>
      if k < k0 then (k, v) :: (k0, v0) :: rest
      else if k = k0 then (k, v) :: rest
      else (k0, v0) :: mapAssign rest k v

/-- AchievementsStatus::add. -/
def add (st : AchievementsStatus) (achievement : Achievement) : AchievementsStatus :=
  { st with m_achievements :=
      mapAssign st.m_achievements achievement.getID achievement }

/-- AchievementsStatus::getAchievement: the entry found under the id, `none`
for NULL. -/
def getAchievement (st : AchievementsStatus) (id : Nat) : Option Achievement :=
  st.m_achievements.lookup id

end AchievementsStatus

/-- Modelled from the spec: PlayerManager::getCurrentAchievementsStatus()
(config/player_manager.hpp is not part of the translated file), the global
access to the current player's achievements status of section 9.  A member
function is called on a receiver (`this`); the current player's status is the
receiver itself (`other` is `none`) or another status object (`other` holds
it).  A current player is taken to exist, as in the words of the spec. -/
structure World where
  /-- The object the member function is called on. -/
  receiver : AchievementsStatus
  /-- The current player's status when it is not the receiver. -/
  other : Option AchievementsStatus
deriving DecidableEq, Repr

namespace World

/-- Modelled from the spec: the object PlayerManager::getCurrentAchievementsStatus()
points to. -/
def current (w : World) : AchievementsStatus :=
  match w.other with
  | none => w.receiver
  | some s => s

/-- Update, through its pointer, an achievement of the current player's status;
the receiver changes with it exactly when it is that status. -/
def modifyCurrent (w : World) (id : Nat) (f : Achievement → Achievement) : World :=
  match w.other with
  | none => { w with receiver := w.receiver.modify id f }
  | some s => { w with other := some (s.modify id f) }

/-- A call made on the current player's status. -/
def onCurrent (st : AchievementsStatus) : World := { receiver := st, other := none }

/-- A call made on a status while another status is the current player's. -/
def onOther (st cur : AchievementsStatus) : World := { receiver := st, other := some cur }

end World

namespace AchievementsStatus

/-- AchievementsStatus::updateAchievementsProgress.  The two achievements are
looked up in, and updated through, the status that
PlayerManager::getCurrentAchievementsStatus() returns; the amounts are read from
the counters `m_variables` of the receiver. -/
def updateAchievementsProgress (cfg : Config) (w : World)
    (_achieve_data_id : Nat) : Outcome World World :=
  let gold_driver := w.current.getAchievement cfg.ACHIEVE_GOLD_DRIVER
  let unstoppable := w.current.getAchievement cfg.ACHIEVE_UNSTOPPABLE
  match unstoppable with
  | none => Outcome.fault w
  | some u =>
    let w1 :=
      if !u.isAchieved then
        w.modifyCurrent cfg.ACHIEVE_UNSTOPPABLE (fun a =>
          a.reset.increase "wins" "wins" (w.receiver.counter cfg.ACHIEVE_CONS_WON_RACES))
      else w
    match gold_driver, w1.current.getAchievement cfg.ACHIEVE_GOLD_DRIVER with
    | some _, some g =>
      if !g.isAchieved then
        Outcome.ok (w1.modifyCurrent cfg.ACHIEVE_GOLD_DRIVER (fun a =>
          ((a.reset.increase "standard" "standard"
              (w1.receiver.counter cfg.ACHIEVE_WON_NORMAL_RACES)).increase
            "std_timetrial" "std_timetrial"
              (w1.receiver.counter cfg.ACHIEVE_WON_TT_RACES)).increase
            "follow_leader" "follow_leader"
              (w1.receiver.counter cfg.ACHIEVE_WON_FTL_RACES)))
      else Outcome.ok w1
    | _, _ => Outcome.fault w1

/-- AchievementsStatus::increaseDataVar (release build), called on the receiver
of the world. -/
def increaseDataVar (cfg : Config) (w : World)
    (achieve_data_id : Nat) (increase : Int) : Outcome World World :=
  if achieve_data_id < cfg.ACHIEVE_DATA_NUM then
    let st1 := w.receiver.setCounter achieve_data_id
      (wrapInt32 (w.receiver.counter achieve_data_id + increase))
    let w1 : World := { w with receiver := st1 }
    match updateAchievementsProgress cfg w1 achieve_data_id with
    | Outcome.fault s => Outcome.fault s
    | Outcome.ok w2 =>
      if w2.receiver.counter achieve_data_id > 10000000 then
        Outcome.ok { w2 with receiver := w2.receiver.setCounter achieve_data_id 10000000 }
      else Outcome.ok w2
  else Outcome.ok w

/-- AchievementsStatus::resetDataVar (release build). -/
def resetDataVar (cfg : Config) (st : AchievementsStatus) (achieve_data_id : Nat) :
    AchievementsStatus :=
  if achieve_data_id < cfg.ACHIEVE_DATA_NUM then st.setCounter achieve_data_id 0
  else st

/-- A sequence of `increaseDataVar` calls on the same receiver, each given as
(counter index, delta), made one after the other. -/
def increaseDataVars (cfg : Config) (w : World) :
    List (Nat × Int) → Outcome World World
  | [] => Outcome.ok w
  | c :: rest =>
    match increaseDataVar cfg w c.1 c.2 with
    | Outcome.fault s => Outcome.fault s
    | Outcome.ok w1 => increaseDataVars cfg w1 rest

/-! ### Persistence -/

/-- The first loop of `load`, over the saved achievement elements. -/
def loadAchievements (st : AchievementsStatus) : List AchievementNode → AchievementsStatus
  | [] => st
  | n :: rest =>
    let achievement_id := n.id.getD 0
    match st.getAchievement achievement_id with
    | none => loadAchievements st rest
    | some _ => loadAchievements (st.modify achievement_id (fun a => a.load n)) rest

/-- The second loop of `load`, over the `var` elements, `i` being the loop
index. -/
def loadVars (cfg : Config) (st : AchievementsStatus) (i : Nat) :
    List (Option Int) → AchievementsStatus
  | [] => st
  | v :: rest =>
    if i ≥ cfg.ACHIEVE_DATA_NUM then loadVars cfg st (i + 1) rest
    else
      match v with
      | some c => loadVars cfg (st.setCounter i c) (i + 1) rest
      | none => loadVars cfg st (i + 1) rest

/-- The value of `data_version` after the lookup of the `data` element. -/
def dataVersion (input : XMLNode) : Int :=
  match input.getNodeData with
  | some (some v) => v
  | _ => -1

/-- AchievementsStatus::load. -/
def load (cfg : Config) (st : AchievementsStatus) (input : XMLNode) : AchievementsStatus :=
  let st1 := loadAchievements st input.getNodesAchievement
  if dataVersion input = cfg.DATA_VERSION then
    loadVars cfg st1 0 input.getNodesVar
  else st1

/-- AchievementsStatus::save, as the element a reader of the written text gets
back. -/
def save (cfg : Config) (st : AchievementsStatus) : XMLNode :=
  { online := st.m_online
    children :=
      st.m_achievements.map (fun e => XMLChild.achievement e.2.save)
        ++ [XMLChild.data (some 1)]
        ++ (List.range cfg.ACHIEVE_DATA_NUM).map (fun i => XMLChild.var (some (st.counter i))) }

/-! ### Synchronisation -/

/-- The call std::vector<bool>::resize(n): cut to n elements, or pad with
false up to n elements. -/
def resize (v : List Bool) (n : Nat) : List Bool :=
  v.take n ++ List.replicate (n - v.length) false

/-- The first loop of `sync` over `achieved_ids`, on the status and the bitmap
`done`.  The write `done[id] = true` at an index that is not below the size of
the bitmap is a fault. -/
def syncMark (st : AchievementsStatus) (done : List Bool) :
    List Nat → Outcome AchievementsStatus (AchievementsStatus × List Bool)
  | [] => Outcome.ok (st, done)
  | id :: rest =>
    let done1 :=
      if done.length < wrapUInt32 (id + 1) then resize done (wrapUInt32 (id + 1))
      else done
    if id < done1.length then
      let done2 := done1.set id true
      let st1 :=
        match st.getAchievement id with
        | some _ => st.modify id Achievement.setAchieved
        | none => st
      syncMark st1 done2 rest
    else Outcome.fault st

/-- The second loop of `sync`: the string `ids` collected over the map in
iteration order. -/
def syncCollect (done : List Bool) (m : List (Nat × Achievement)) : CppString :=
  m.foldl (fun ids e =>
    let id := e.2.getID
    if e.2.isAchieved && (decide (id ≥ done.length) || !(done.getD id false)) then
      ids ++ StringUtils.toString id ++ [',']
    else ids) []

end AchievementsStatus

/-- Modelled from the spec: the outbound reconciliation request of section 4.5,
step 4 (class Online::HTTPRequest is not part of the translated file): the
action passed to PlayerManager::setUserDetails and the parameter
`achievementid`. -/
structure HTTPRequest where
  action : String
  achievementid : CppString
deriving DecidableEq, Repr

namespace AchievementsStatus

/-- AchievementsStatus::sync.  Returns the status after the call and the
requests that were queued, in order. -/
def sync (st : AchievementsStatus) (achieved_ids : List Nat) :
    Outcome AchievementsStatus (AchievementsStatus × List HTTPRequest) :=
  match syncMark st [] achieved_ids with
  | Outcome.fault s => Outcome.fault s
  | Outcome.ok (st1, done) =>
    let ids := syncCollect done st1.m_achievements
    if ids.length > 0 then
      let ids1 := ids.take (ids.length - 1)
      Outcome.ok (st1, [{ action := "achieving", achievementid := ids1 }])
    else Outcome.ok (st1, [])

/-- The map is a std::map filled through `add`: keys strictly ascending, each
key the id of its achievement, each key a `uint32_t`. -/
def RegistryWF (st : AchievementsStatus) : Prop :=
  st.m_achievements.Pairwise (fun a b => a.1 < b.1) ∧
  ∀ e ∈ st.m_achievements, e.2.getID = e.1 ∧ e.1 < 4294967296

instance (st : AchievementsStatus) : Decidable st.RegistryWF := by
  unfold RegistryWF; infer_instance

/-- In the words of the specification (section 4.5, step 2): every registered
achievement whose id is in the server list is set achieved. -/
def markAll (st : AchievementsStatus) (serverIds : List Nat) : AchievementsStatus :=
  { st with m_achievements :=
      st.m_achievements.map (fun e =>
        if e.1 ∈ serverIds then (e.1, e.2.setAchieved) else e) }

/-- In the words of the specification (section 4.5, step 3): the ids of the
registered achievements that are achieved and absent from the server list, in
registry iteration order. -/
def pendingDelta (st : AchievementsStatus) (serverIds : List Nat) : List Nat :=
  (st.m_achievements.filter (fun e => e.2.achieved && decide (e.1 ∉ serverIds))).map
    (fun e => e.1)

/-- The ids in decimal, joined by single commas. -/
def joinIds (ids : List Nat) : CppString :=
  List.intercalate [','] (ids.map StringUtils.toString)

/-- In the words of the specification (section 4.5, step 4): one request with
the comma-joined delta when the delta is not empty, none otherwise. -/
def requestsFor (delta : List Nat) : List HTTPRequest :=
  if delta = [] then [] else [{ action := "achieving", achievementid := joinIds delta }]

/-- Two calls of `sync` with the same server list, one directly after the other;
the requests of both calls, in order. -/
def syncTwice (st : AchievementsStatus) (achieved_ids : List Nat) :
    Outcome AchievementsStatus (AchievementsStatus × List HTTPRequest) :=
  match sync st achieved_ids with
  | Outcome.fault s => Outcome.fault s
  | Outcome.ok (st1, reqs1) =>
    match sync st1 achieved_ids with
    | Outcome.fault s => Outcome.fault s
    | Outcome.ok (st2, reqs2) => Outcome.ok (st2, reqs1 ++ reqs2)

/-! ### Event fan-out -/

/-- The loop of `onRaceEnd` and `onLapEnd` over the map in iteration order: the
hook is called on the achievement of each entry.  Returns the map after the loop
and the ids of the achievements the hook was called on, in call order. -/
def fanOut (hook : Achievement → Achievement) :
    List (Nat × Achievement) → List (Nat × Achievement) × List Nat
  | [] => ([], [])
  | e :: rest =>
    let r := fanOut hook rest
    ((e.1, hook e.2) :: r.1, e.2.getID :: r.2)

/-- AchievementsStatus::onRaceEnd.  Returns the status after the call and the
ids of the achievements whose hook was called, in call order. -/
def onRaceEnd (st : AchievementsStatus) : AchievementsStatus × List Nat :=
  let r := fanOut Achievement.onRaceEnd st.m_achievements
  ({ st with m_achievements := r.1 }, r.2)

/-- AchievementsStatus::onLapEnd.  Returns the status after the call and the
ids of the achievements whose hook was called, in call order. -/
def onLapEnd (st : AchievementsStatus) : AchievementsStatus × List Nat :=
  let r := fanOut Achievement.onLapEnd st.m_achievements
  ({ st with m_achievements := r.1 }, r.2)

/-! ### The map operations behind getAchievement -/

/-- The keys of a std::map after the expression `m[k]`: operator[] inserts the
key, in its place in the order, when the map does not hold it. -/
def mapIndexKeys (m : List (Nat × Achievement)) (k : Nat) : List Nat :=
  if (m.lookup k).isSome then m.map (fun e => e.1)
  else List.orderedInsert (fun a b => a ≤ b) k (m.map (fun e => e.1))

/-- The keys of `m_achievements` after a call of getAchievement(id): the
expression `m_achievements[id]` is evaluated only behind the test
`m_achievements.find(id) != m_achievements.end()`. -/
def getAchievementKeys (st : AchievementsStatus) (id : Nat) : List Nat :=
  if (st.m_achievements.lookup id).isSome then mapIndexKeys st.m_achievements id
  else st.m_achievements.map (fun e => e.1)

end AchievementsStatus

/-! ## Concrete instances used to exercise the definitions -/

/-- A configuration with six counters; gold driver has id 6, unstoppable id 8. -/
def exampleConfig : Config :=
  { ACHIEVE_DATA_NUM := 6
    ACHIEVE_WON_NORMAL_RACES := 1
    ACHIEVE_WON_TT_RACES := 2
    ACHIEVE_WON_FTL_RACES := 3
    ACHIEVE_CONS_WON_RACES := 4
    ACHIEVE_GOLD_DRIVER := 6
    ACHIEVE_UNSTOPPABLE := 8
    DATA_VERSION := 1 }

/-- A gold driver achievement whose only required goal is standard with
threshold 3. -/
def goldDriver3 : Achievement := { id := 6, goals := [("standard", 3)] }

/-- An unstoppable achievement requiring five consecutive wins. -/
def unstoppable5 : Achievement := { id := 8, goals := [("wins", 5)] }

/-- A freshly constructed status with both counter-derived achievements added. -/
def freshBoth : AchievementsStatus :=
  ((AchievementsStatus.ctor exampleConfig).add goldDriver3).add unstoppable5

/-- The registry of the example in section 8: achievements 5 and 7, both
achieved. -/
def registry57 : AchievementsStatus :=
  ((AchievementsStatus.ctor exampleConfig).add { id := 5, achieved := true }).add
    { id := 7, achieved := true }

/-- A registry holding one achievement, not achieved, with the largest id a
`uint32_t` can take. -/
def registryMax : AchievementsStatus :=
  (AchievementsStatus.ctor exampleConfig).add { id := 4294967295 }

/-- The example status after two calls increaseDataVar(ACHIEVE_WON_NORMAL_RACES, 1). -/
def afterTwoWins : AchievementsStatus :=
  (AchievementsStatus.increaseDataVars exampleConfig (World.onCurrent freshBoth)
    [(1, 1), (1, 1)]).state.receiver

/-- The example status after three calls increaseDataVar(ACHIEVE_WON_NORMAL_RACES, 1). -/
def afterThreeWins : AchievementsStatus :=
  (AchievementsStatus.increaseDataVars exampleConfig (World.onCurrent freshBoth)
    [(1, 1), (1, 1), (1, 1)]).state.receiver

/-- The gold driver of the example once achieved: goal standard at 3. -/
def goldDriverAchieved : Achievement :=
  { id := 6, goals := [("standard", 3)],
    progress := [("standard", 3), ("std_timetrial", 0), ("follow_leader", 0)],
    achieved := true }

/-- A gold driver achievement that requires three wins in each of the three
race modes. -/
def goldDriverFull : Achievement :=
  { id := 6, goals := [("standard", 3), ("std_timetrial", 3), ("follow_leader", 3)] }

/-- A freshly constructed status with the full gold driver and unstoppable. -/
def freshFull : AchievementsStatus :=
  ((AchievementsStatus.ctor exampleConfig).add goldDriverFull).add unstoppable5

/-- Saved data tagged with version 2, with two var elements. -/
def staleInput : XMLNode :=
  { online := true
    children := [XMLChild.data (some 2), XMLChild.var (some 5), XMLChild.var (some 6)] }

/-- Saved data without data element, with one var element. -/
def noDataInput : XMLNode :=
  { online := true, children := [XMLChild.var (some 5)] }

/-- Saved data of version 1 with eight var elements, the second without counter
attribute, and saved achievements for the ids 9 (not registered in the example),
6 and a missing id. -/
def tolerantInput : XMLNode :=
  { online := true
    children :=
      [XMLChild.var (some 4),
       XMLChild.achievement { id := some 9, achieved := true, progress := [] },
       XMLChild.achievement
         { id := some 6, achieved := true, progress := [("standard", 3)] },
       XMLChild.achievement { id := none, achieved := true, progress := [] },
       XMLChild.data (some 1), XMLChild.data (some 2),
       XMLChild.var none, XMLChild.var (some 3), XMLChild.var (some 5),
       XMLChild.var (some 5), XMLChild.var (some 5), XMLChild.var (some 6),
       XMLChild.var (some 77)] }

/-- A status with one achievement whose progress is scoped to a race (id 3), one
scoped to a lap (id 4) and one that keeps its progress (id 9), each with some
progress, and counters 1 to 6. -/
def eventStatus : AchievementsStatus :=
  { (((AchievementsStatus.ctor exampleConfig).add
        { id := 9, progress := [("x", 2)] }).add
        { id := 3, progress := [("hits", 1)], resetAfterRace := true }).add
        { id := 4, progress := [("laps", 1)], resetAfterLap := true } with
    m_variables := [1, 2, 3, 4, 5, 6] }

/-- A freshly constructed status in which only the gold driver is registered. -/
def freshGoldOnly : AchievementsStatus :=
  (AchievementsStatus.ctor exampleConfig).add goldDriver3

/-- A freshly constructed status in which only unstoppable is registered. -/
def freshUnstoppableOnly : AchievementsStatus :=
  (AchievementsStatus.ctor exampleConfig).add unstoppable5

/-- The fresh example status after increaseDataVar(ACHIEVE_WON_NORMAL_RACES,
9999998). -/
def capStatus : AchievementsStatus :=
  (AchievementsStatus.increaseDataVar exampleConfig (World.onCurrent freshFull)
    1 9999998).state.receiver

/-! # Theorems -/

open AchievementsStatus

/-! ## Lookup under an update, and counter arithmetic -/

theorem lookup_map_modify (m : List (Nat × Achievement)) (id j : Nat)
    (f : Achievement → Achievement) :
    (m.map (fun e => if e.1 = id then (e.1, f e.2) else e)).lookup j
      = (m.lookup j).map (fun a => if j = id then f a else a) := by
  induction m with
  | nil => simp
  | cons e rest ih =>
    obtain ⟨k, v⟩ := e
    by_cases hj : j = k
    · subst hj
      by_cases hk : j = id <;> simp [List.lookup_cons, hk]
    · have hb : (j == k) = false := by simpa using hj
      by_cases hk : k = id
      · subst hk; simp [List.lookup_cons, hb, ih]
      · simp [List.lookup_cons, hk, hb, ih]

theorem getAchievement_modify (st : AchievementsStatus) (id j : Nat)
    (f : Achievement → Achievement) :
    (st.modify id f).getAchievement j
      = (st.getAchievement j).map (fun a => if j = id then f a else a) := by
  simp [AchievementsStatus.modify, AchievementsStatus.getAchievement, lookup_map_modify]

theorem modify_m_variables (st : AchievementsStatus) (id : Nat)
    (f : Achievement → Achievement) :
    (st.modify id f).m_variables = st.m_variables := rfl

theorem set_clamp (l : List Int) (k : Nat) (v : Int) :
    (if (l.set k v).getD k 0 > 10000000 then (l.set k v).set k 10000000 else l.set k v)
      = l.set k (min v CAP) := by
  by_cases hk : k < l.length
  · have : (l.set k v).getD k 0 = v := by
      simp [List.getD_eq_getElem?_getD, List.getElem?_set, hk]
    rw [this]
    by_cases hv : v > 10000000
    · simp [hv, CAP, List.set_set, min_eq_right (le_of_lt hv)]
    · have : v ≤ 10000000 := not_lt.mp hv
      simp [hv, CAP, min_eq_left this]
  · have hk2 : l.length ≤ k := not_lt.mp hk
    simp [List.set_eq_of_length_le hk2, List.getD_eq_getElem?_getD, hk2]

theorem wrapInt32_of_range (x : Int) (h0 : -2147483648 ≤ x) (h1 : x ≤ 2147483647) :
    wrapInt32 x = x := by
  unfold wrapInt32; omega

theorem counter_bounds (st : AchievementsStatus) (k : Nat) (lo hi : Int)
    (hlo : lo ≤ 0) (hhi : 0 ≤ hi) (h : ∀ v ∈ st.m_variables, lo ≤ v ∧ v ≤ hi) :
    lo ≤ st.counter k ∧ st.counter k ≤ hi := by
  unfold counter
  rw [List.getD_eq_getElem?_getD]
  cases hk : st.m_variables[k]? with
  | none => exact ⟨hlo, hhi⟩
  | some v => exact h v (List.getElem?_mem hk)

/-! ## The first loop of sync -/

theorem wrapUInt32_succ (id : Nat) (h : id < 4294967295) : wrapUInt32 (id + 1) = id + 1 := by
  unfold wrapUInt32; omega

theorem resize_length (v : List Bool) (n : Nat) : (resize v n).length = n := by
  unfold resize
  simp only [List.length_append, List.length_take, List.length_replicate]
  omega

theorem resize_getD (v : List Bool) (n i : Nat) (h : v.length ≤ n) :
    (resize v n).getD i false = v.getD i false := by
  unfold resize
  rw [List.take_of_length_le h]
  simp only [List.getD_eq_getElem?_getD, List.getElem?_append, List.getElem?_replicate]
  by_cases hi : i < v.length
  · simp [hi]
  · have : v[i]? = none := List.getElem?_eq_none (not_lt.mp hi)
    simp only [hi, if_false, this]
    split <;> rfl

theorem set_true_getD (v : List Bool) (id i : Nat) (h : id < v.length) :
    (v.set id true).getD i false = (v.getD i false || decide (i = id)) := by
  simp only [List.getD_eq_getElem?_getD, List.getElem?_set]
  by_cases hi : id = i
  · subst hi; simp [h]
  · have : ¬ i = id := fun e => hi e.symm
    simp [hi, this]

theorem modify_of_getAchievement_none (st : AchievementsStatus) (id : Nat)
    (f : Achievement → Achievement) (h : st.getAchievement id = none) :
    st.modify id f = st := by
  unfold getAchievement at h
  rw [List.lookup_eq_none_iff] at h
  unfold AchievementsStatus.modify
  have hm : st.m_achievements.map (fun e => if e.1 = id then (e.1, f e.2) else e)
      = st.m_achievements.map (fun e => e) := by
    apply List.map_congr_left
    intro e he
    have := h e he
    have hne : ¬ e.1 = id := by
      intro heq
      simp [heq] at this
    simp [hne]
  rw [hm, List.map_id']

theorem markAll_modify (st : AchievementsStatus) (id : Nat) (rest : List Nat) :
    markAll (st.modify id Achievement.setAchieved) rest = markAll st (id :: rest) := by
  unfold markAll AchievementsStatus.modify
  simp only [List.map_map]
  congr 1
  apply List.map_congr_left
  intro e _
  by_cases h1 : e.1 = id <;> by_cases h2 : e.1 ∈ rest <;>
    simp [h1, h2, Achievement.setAchieved]

theorem markAll_step (st : AchievementsStatus) (id : Nat) (rest : List Nat) :
    markAll (match st.getAchievement id with
      | some _ => st.modify id Achievement.setAchieved
      | none => st) rest = markAll st (id :: rest) := by
  cases h : st.getAchievement id with
  | none =>
    simp only
    rw [← markAll_modify, modify_of_getAchievement_none st id _ h]
  | some a => simp only; exact markAll_modify st id rest

theorem markAll_nil (st : AchievementsStatus) : markAll st [] = st := by
  unfold markAll
  simp

theorem syncMark_spec (serverIds : List Nat) :
    ∀ (st : AchievementsStatus) (done : List Bool),
      (∀ id ∈ serverIds, id < 4294967295) →
      ∃ done1, syncMark st done serverIds = Outcome.ok (markAll st serverIds, done1) ∧
        ∀ i, done1.getD i false = (done.getD i false || decide (i ∈ serverIds)) := by
  induction serverIds with
  | nil =>
    intro st done _
    exact ⟨done, by simp [syncMark, markAll_nil], by simp⟩
  | cons id rest ih =>
    intro st done hS
    have hid : id < 4294967295 := hS id (List.mem_cons_self _ _)
    have hrest : ∀ j ∈ rest, j < 4294967295 := fun j hj => hS j (List.mem_cons_of_mem _ hj)
    have hlen : id < (if done.length < wrapUInt32 (id + 1)
        then resize done (wrapUInt32 (id + 1)) else done).length := by
      rw [wrapUInt32_succ id hid]
      split
      · rw [resize_length]; omega
      · omega
    have hget : ∀ i, (if done.length < wrapUInt32 (id + 1)
        then resize done (wrapUInt32 (id + 1)) else done).getD i false
          = done.getD i false := by
      intro i
      rw [wrapUInt32_succ id hid]
      split
      · exact resize_getD done (id + 1) i (by omega)
      · rfl
    obtain ⟨done1, hrun, hdone⟩ := ih
      (match st.getAchievement id with
        | some _ => st.modify id Achievement.setAchieved
        | none => st)
      ((if done.length < wrapUInt32 (id + 1)
        then resize done (wrapUInt32 (id + 1)) else done).set id true) hrest
    refine ⟨done1, ?_, ?_⟩
    · rw [syncMark]
      simp only [hlen, if_true]
      rw [hrun, markAll_step]
    · intro i
      rw [hdone i, set_true_getD _ _ _ hlen, hget i]
      by_cases h1 : i = id <;> simp [h1]

/-! ## The second loop of sync and the payload -/

theorem syncCollect_foldl (done : List Bool) (m : List (Nat × Achievement)) :
    ∀ acc : CppString,
    m.foldl (fun (ids : CppString) (e : Nat × Achievement) =>
      if e.2.isAchieved && (decide (e.2.getID ≥ done.length) || !(done.getD e.2.getID false))
      then ids ++ StringUtils.toString e.2.getID ++ [','] else ids) acc
    = acc ++ ((m.filter (fun (e : Nat × Achievement) => e.2.isAchieved &&
          (decide (e.2.getID ≥ done.length) || !(done.getD e.2.getID false)))).map
        (fun (e : Nat × Achievement) =>
          StringUtils.toString e.2.getID ++ [','])).flatten := by
  induction m with
  | nil => intro acc; simp
  | cons e rest ih =>
    intro acc
    rw [List.foldl_cons, ih]
    by_cases hc : (e.2.isAchieved &&
        (decide (e.2.getID ≥ done.length) || !(done.getD e.2.getID false))) = true
    · simp only [List.filter_cons, hc, if_true, List.map_cons, List.flatten_cons,
        List.append_assoc]
    · simp only [List.filter_cons, hc, if_false]
      rfl

theorem syncCollect_eq (done : List Bool) (m : List (Nat × Achievement)) :
    syncCollect done m
      = ((m.filter (fun e => e.2.isAchieved &&
          (decide (e.2.getID ≥ done.length) || !(done.getD e.2.getID false)))).map
        (fun e => StringUtils.toString e.2.getID ++ [','])).flatten := by
  unfold syncCollect
  rw [syncCollect_foldl]
  rfl

theorem unmarked_iff (done : List Bool) (serverIds : List Nat)
    (hdone : ∀ i, done.getD i false = decide (i ∈ serverIds)) (id : Nat) :
    (decide (id ≥ done.length) || !(done.getD id false)) = decide (id ∉ serverIds) := by
  by_cases hlen : id ≥ done.length
  · have h1 : done.getD id false = false := by
      simp [List.getD_eq_getElem?_getD, List.getElem?_eq_none hlen]
    have h2 : decide (id ∈ serverIds) = false := by rw [← hdone id, h1]
    have h3 : id ∉ serverIds := by simpa using h2
    simp [hlen, h3]
  · rw [hdone id]
    by_cases h3 : id ∈ serverIds <;> simp [hlen, h3]

theorem collected_eq_pendingDelta (st : AchievementsStatus) (serverIds : List Nat)
    (hwf : st.RegistryWF) :
    ((markAll st serverIds).m_achievements.filter
        (fun e => e.2.isAchieved && decide (e.2.getID ∉ serverIds))).map
      (fun e => e.2.getID)
    = pendingDelta st serverIds := by
  unfold markAll pendingDelta
  simp only
  rw [List.filter_map, List.map_map]
  have hid : ∀ e ∈ st.m_achievements, e.2.getID = e.1 := fun e he => (hwf.2 e he).1
  have hf : st.m_achievements.filter
      ((fun e : Nat × Achievement => e.2.isAchieved && decide (e.2.getID ∉ serverIds)) ∘
        (fun e => if e.1 ∈ serverIds then (e.1, e.2.setAchieved) else e))
      = st.m_achievements.filter (fun e => e.2.achieved && decide (e.1 ∉ serverIds)) := by
    apply List.filter_congr
    intro e he
    have hid1 : e.2.id = e.1 := hid e he
    by_cases h : e.1 ∈ serverIds
    · simp [h, Achievement.setAchieved, Achievement.getID, Achievement.isAchieved, hid1]
    · simp [h, Achievement.getID, Achievement.isAchieved, hid1]
  rw [hf]
  apply List.map_congr_left
  intro e he
  have hmem := (List.mem_filter.mp he)
  have h : e.1 ∉ serverIds := by
    have := hmem.2
    simp at this
    exact this.2
  have := hid e hmem.1
  simp [h, this]

theorem intercalate_cons_cons (sep x y : CppString) (r : List CppString) :
    List.intercalate sep (x :: y :: r) = x ++ sep ++ List.intercalate sep (y :: r) := by
  simp [List.intercalate, List.intersperse]

theorem flatten_pieces_dropLast (f : Nat → CppString) (c : Char) (ids : List Nat)
    (h : ids ≠ []) :
    ((ids.map (fun id => f id ++ [c])).flatten).dropLast
      = List.intercalate [c] (ids.map f) := by
  induction ids with
  | nil => exact absurd rfl h
  | cons x rest ih =>
    cases rest with
    | nil => simp [List.intercalate]
    | cons y r =>
      have ih2 := ih (by simp)
      rw [List.map_cons, List.flatten_cons, List.map_cons (f := f), List.map_cons (f := f),
        intercalate_cons_cons, ← List.map_cons (f := f), ← ih2]
      rw [List.dropLast_append_of_ne_nil]
      · simp

theorem payload_of_delta (delta : List Nat) :
    (let ids := ((delta.map (fun id => StringUtils.toString id ++ [','])).flatten)
     if ids.length > 0 then
       [({ action := "achieving", achievementid := ids.take (ids.length - 1) } : HTTPRequest)]
     else []) = requestsFor delta := by
  cases delta with
  | nil => simp [requestsFor]
  | cons x rest =>
    have hne : x :: rest ≠ [] := by simp
    have h := flatten_pieces_dropLast StringUtils.toString ',' (x :: rest) hne
    rw [List.dropLast_eq_take] at h
    simp only [requestsFor, hne, if_false, joinIds]
    rw [← h]
    simp

/-- Specification of sync on inputs without the id 2^32 - 1: the call returns,
the achievements named by the server are marked, and the requests are those of
the pending delta of the status before the call. -/
theorem sync_spec (st : AchievementsStatus) (serverIds : List Nat)
    (hwf : st.RegistryWF) (hS : ∀ id ∈ serverIds, id < 4294967295) :
    sync st serverIds
      = Outcome.ok (markAll st serverIds, requestsFor (pendingDelta st serverIds)) := by
  obtain ⟨done, hrun, hdone⟩ := syncMark_spec serverIds st [] hS
  have hdone1 : ∀ i, done.getD i false = decide (i ∈ serverIds) := by
    intro i; rw [hdone i]; simp
  unfold sync
  rw [hrun]
  simp only
  rw [syncCollect_eq]
  have hfilter : (markAll st serverIds).m_achievements.filter (fun e => e.2.isAchieved &&
          (decide (e.2.getID ≥ done.length) || !(done.getD e.2.getID false)))
      = (markAll st serverIds).m_achievements.filter
          (fun e => e.2.isAchieved && decide (e.2.getID ∉ serverIds)) := by
    apply List.filter_congr
    intro e _
    rw [unmarked_iff done serverIds hdone1]
  rw [hfilter]
  have hmap : ((markAll st serverIds).m_achievements.filter
          (fun e => e.2.isAchieved && decide (e.2.getID ∉ serverIds))).map
        (fun e => StringUtils.toString e.2.getID ++ [','])
      = (pendingDelta st serverIds).map (fun id => StringUtils.toString id ++ [',']) := by
    rw [← collected_eq_pendingDelta st serverIds hwf, List.map_map]
    rfl
  rw [hmap]
  have hp := payload_of_delta (pendingDelta st serverIds)
  simp only at hp
  rw [← hp]
  split <;> rfl

theorem getAchievement_markAll (st : AchievementsStatus) (serverIds : List Nat) (j : Nat) :
    (markAll st serverIds).getAchievement j
      = (st.getAchievement j).map (fun a => if j ∈ serverIds then a.setAchieved else a) := by
  unfold markAll getAchievement
  simp only
  induction st.m_achievements with
  | nil => simp
  | cons e rest ih =>
    obtain ⟨k, v⟩ := e
    by_cases hj : j = k
    · subst hj
      by_cases hk : j ∈ serverIds <;> simp [List.lookup_cons, hk]
    · have hb : (j == k) = false := by simpa using hj
      by_cases hk : k ∈ serverIds <;> simp [List.lookup_cons, hk, hb, ih]

theorem lookup_eq_some_iff_mem (m : List (Nat × Achievement))
    (hp : m.Pairwise (fun a b => a.1 < b.1)) (i : Nat) (a : Achievement) :
    m.lookup i = some a ↔ (i, a) ∈ m := by
  induction m with
  | nil => simp
  | cons e rest ih =>
    obtain ⟨k, v⟩ := e
    rw [List.pairwise_cons] at hp
    by_cases hi : i = k
    · subst hi
      simp only [List.lookup_cons, beq_self_eq_true, Option.some.injEq, List.mem_cons,
        Prod.mk.injEq, true_and]
      constructor
      · intro h; exact Or.inl h.symm
      · rintro (h | h)
        · exact h.symm
        · exact absurd (hp.1 _ h) (lt_irrefl _)
    · have hb : (i == k) = false := by simpa using hi
      simp only [List.lookup_cons, hb, List.mem_cons, Prod.mk.injEq, hi, false_and, false_or]
      exact ih hp.2

theorem mem_pendingDelta (st : AchievementsStatus) (serverIds : List Nat)
    (hwf : st.RegistryWF) (i : Nat) :
    i ∈ pendingDelta st serverIds ↔
      ∃ a, st.getAchievement i = some a ∧ a.isAchieved = true ∧ i ∉ serverIds := by
  unfold pendingDelta getAchievement
  simp only [List.mem_map, List.mem_filter, Bool.and_eq_true, decide_eq_true_eq]
  constructor
  · rintro ⟨e, ⟨he, hach, hS⟩, rfl⟩
    exact ⟨e.2, (lookup_eq_some_iff_mem _ hwf.1 e.1 e.2).mpr he, hach, hS⟩
  · rintro ⟨a, hl, hach, hS⟩
    exact ⟨(i, a), ⟨(lookup_eq_some_iff_mem _ hwf.1 i a).mp hl, hach, hS⟩, rfl⟩

theorem pendingDelta_ascending (st : AchievementsStatus) (serverIds : List Nat)
    (hwf : st.RegistryWF) :
    (pendingDelta st serverIds).Pairwise (fun a b => a < b) := by
  unfold pendingDelta
  rw [List.pairwise_map]
  exact List.Pairwise.filter _ hwf.1

theorem requestsFor_length (delta : List Nat) :
    (requestsFor delta).length = if delta = [] then 0 else 1 := by
  unfold requestsFor
  split <;> rfl

/-- Output of sync on server lists without the id 2^32 - 1: the call returns and
the queued requests are those of the pending delta, whose members are exactly the
ids of the registered achievements achieved before the call and absent from the
server list, in strictly ascending order (so each once); the payload is the
comma-joined decimal ids. -/
theorem sync_payload (st : AchievementsStatus) (serverIds : List Nat)
    (hwf : st.RegistryWF) (hS : ∀ id ∈ serverIds, id < 4294967295) :
    (∃ st1, sync st serverIds = Outcome.ok (st1,
        if pendingDelta st serverIds = [] then []
        else [{ action := "achieving",
                achievementid := List.intercalate [',']
                  ((pendingDelta st serverIds).map StringUtils.toString) }])) ∧
    (pendingDelta st serverIds).Pairwise (fun a b => a < b) ∧
    (pendingDelta st serverIds).Nodup ∧
    ∀ i, i ∈ pendingDelta st serverIds ↔
      ∃ a, st.getAchievement i = some a ∧ a.isAchieved = true ∧ i ∉ serverIds :=
  ⟨⟨markAll st serverIds, sync_spec st serverIds hwf hS⟩,
    pendingDelta_ascending st serverIds hwf,
    (pendingDelta_ascending st serverIds hwf).imp (fun h => Nat.ne_of_lt h),
    mem_pendingDelta st serverIds hwf⟩

/-- Request count of sync on server lists without the id 2^32 - 1: exactly one
request when some registered achievement is achieved and absent from the server
list, none otherwise. -/
theorem sync_request_count (st : AchievementsStatus) (serverIds : List Nat)
    (hwf : st.RegistryWF) (hS : ∀ id ∈ serverIds, id < 4294967295) :
    ∃ st1 reqs, sync st serverIds = Outcome.ok (st1, reqs) ∧
      ((∃ i a, st.getAchievement i = some a ∧ a.isAchieved = true ∧ i ∉ serverIds) →
        reqs.length = 1) ∧
      ((¬ ∃ i a, st.getAchievement i = some a ∧ a.isAchieved = true ∧ i ∉ serverIds) →
        reqs = []) := by
  refine ⟨markAll st serverIds, requestsFor (pendingDelta st serverIds),
    sync_spec st serverIds hwf hS, ?_, ?_⟩
  · rintro ⟨i, a, h⟩
    have hi : i ∈ pendingDelta st serverIds :=
      (mem_pendingDelta st serverIds hwf i).mpr ⟨a, h⟩
    have hne : pendingDelta st serverIds ≠ [] := List.ne_nil_of_mem hi
    simp [requestsFor, hne]
  · intro hno
    have hnil : pendingDelta st serverIds = [] := by
      apply List.eq_nil_iff_forall_not_mem.mpr
      intro i hi
      obtain ⟨a, h⟩ := (mem_pendingDelta st serverIds hwf i).mp hi
      exact hno ⟨i, a, h⟩
    simp [requestsFor, hnil]

/-- Effect of sync on the achieved flags, on server lists without the id
2^32 - 1: the call returns, and a registered achievement is afterwards achieved
exactly when it was achieved before or its id occurs in the server list; its id,
goals and progress are unchanged. -/
theorem sync_flags (st : AchievementsStatus) (serverIds : List Nat)
    (hS : ∀ id ∈ serverIds, id < 4294967295) :
    ∃ st1 reqs, (sync st serverIds = Outcome.ok (st1, reqs)) ∧
      ∀ i a, st.getAchievement i = some a →
        st1.getAchievement i
          = some { a with achieved := a.achieved || decide (i ∈ serverIds) } := by
  obtain ⟨done, hrun, _⟩ := syncMark_spec serverIds st [] hS
  have hret : ∃ reqs, sync st serverIds = Outcome.ok (markAll st serverIds, reqs) := by
    unfold sync
    rw [hrun]
    simp only
    split
    · exact ⟨_, rfl⟩
    · exact ⟨_, rfl⟩
  obtain ⟨reqs, hreqs⟩ := hret
  refine ⟨markAll st serverIds, reqs, hreqs, ?_⟩
  intro i a ha
  rw [getAchievement_markAll, ha]
  by_cases hi : i ∈ serverIds <;> simp [hi, Achievement.setAchieved]

theorem markAll_idem (st : AchievementsStatus) (serverIds : List Nat) :
    markAll (markAll st serverIds) serverIds = markAll st serverIds := by
  unfold markAll
  simp only [List.map_map]
  congr 1
  apply List.map_congr_left
  intro e _
  by_cases h : e.1 ∈ serverIds <;> simp [h, Achievement.setAchieved]

theorem markAll_RegistryWF (st : AchievementsStatus) (serverIds : List Nat)
    (hwf : st.RegistryWF) : (markAll st serverIds).RegistryWF := by
  unfold RegistryWF markAll
  simp only
  constructor
  · rw [List.pairwise_map]
    apply hwf.1.imp
    intro a b hab
    by_cases h1 : a.1 ∈ serverIds <;> by_cases h2 : b.1 ∈ serverIds <;> simpa [h1, h2] using hab
  · intro e he
    rw [List.mem_map] at he
    obtain ⟨e0, he0, rfl⟩ := he
    have := hwf.2 e0 he0
    by_cases h1 : e0.1 ∈ serverIds
    · simpa [h1, Achievement.setAchieved, Achievement.getID] using this
    · simpa [h1] using this

theorem pendingDelta_markAll (st : AchievementsStatus) (serverIds : List Nat) :
    pendingDelta (markAll st serverIds) serverIds = pendingDelta st serverIds := by
  unfold pendingDelta markAll
  simp only
  rw [List.filter_map, List.map_map]
  have hf : st.m_achievements.filter
      ((fun e : Nat × Achievement => e.2.achieved && decide (e.1 ∉ serverIds)) ∘
        (fun e => if e.1 ∈ serverIds then (e.1, e.2.setAchieved) else e))
      = st.m_achievements.filter (fun e => e.2.achieved && decide (e.1 ∉ serverIds)) := by
    apply List.filter_congr
    intro e _
    by_cases h : e.1 ∈ serverIds <;> simp [h, Achievement.setAchieved]
  rw [hf]
  apply List.map_congr_left
  intro e _
  by_cases h : e.1 ∈ serverIds <;> simp [h]

/-- C4 (amended). For a registry filled through add and a server list without the
id 2^32 - 1, two consecutive calls sync(S) both return; the second call leaves
the status as the first call left it and queues exactly the requests the first
call queued.  Each call queues at most one request, so the two calls queue none
when every locally achieved id is in S and otherwise two with the same
payload. -/
theorem syncTwice_repeats (st : AchievementsStatus) (serverIds : List Nat)
    (hwf : st.RegistryWF) (hS : ∀ id ∈ serverIds, id < 4294967295) :
    ∃ st1 reqs, sync st serverIds = Outcome.ok (st1, reqs) ∧
      sync st1 serverIds = Outcome.ok (st1, reqs) ∧
      syncTwice st serverIds = Outcome.ok (st1, reqs ++ reqs) ∧
      reqs.length ≤ 1 ∧
      (reqs = [] ↔
        ¬ ∃ i a, st.getAchievement i = some a ∧ a.isAchieved = true ∧ i ∉ serverIds) := by
  have h1 := sync_spec st serverIds hwf hS
  have h2 := sync_spec (markAll st serverIds) serverIds (markAll_RegistryWF st serverIds hwf) hS
  rw [markAll_idem, pendingDelta_markAll] at h2
  refine ⟨markAll st serverIds, requestsFor (pendingDelta st serverIds), h1, h2, ?_, ?_, ?_⟩
  · unfold syncTwice
    rw [h1]
    simp only
    rw [h2]
  · rw [requestsFor_length]; split <;> simp
  · constructor
    · intro hnil
      rintro ⟨i, a, h⟩
      have hi : i ∈ pendingDelta st serverIds :=
      (mem_pendingDelta st serverIds hwf i).mpr ⟨a, h⟩
      have hne : pendingDelta st serverIds ≠ [] := List.ne_nil_of_mem hi
      simp [requestsFor, hne] at hnil
    · intro hno
      have hnil : pendingDelta st serverIds = [] := by
        apply List.eq_nil_iff_forall_not_mem.mpr
        intro i hi
        obtain ⟨a, h⟩ := (mem_pendingDelta st serverIds hwf i).mp hi
        exact hno ⟨i, a, h⟩
      simp [requestsFor, hnil]

/-- Witness for C4 (amended): the registry of 5 and 7 with the server list 7. -/
theorem syncTwice_repeats_witness :
    (registry57.RegistryWF ∧ ∀ id ∈ [7], id < 4294967295) ∧
    ∃ st1 reqs, sync registry57 [7] = Outcome.ok (st1, reqs) ∧
      sync st1 [7] = Outcome.ok (st1, reqs) ∧
      syncTwice registry57 [7] = Outcome.ok (st1, reqs ++ reqs) ∧
      reqs.length ≤ 1 ∧
      (reqs = [] ↔
        ¬ ∃ i a, registry57.getAchievement i = some a ∧ a.isAchieved = true ∧ i ∉ [7]) :=
  ⟨⟨by decide, by decide⟩, syncTwice_repeats registry57 [7] (by decide) (by decide)⟩

/-- Counterexample to C4 as stated: with achievements 5 and 7 achieved, two
consecutive calls sync of the list 7 queue two requests, both with payload 5. -/
theorem syncTwice_counterexample :
    syncTwice registry57 [7]
      = Outcome.ok (registry57,
          [{ action := "achieving", achievementid := ['5'] },
           { action := "achieving", achievementid := ['5'] }]) ∧
    ¬ ((([{ action := "achieving", achievementid := ['5'] },
           { action := "achieving", achievementid := ['5'] }] : List HTTPRequest)).length
        ≤ 1) := by
  decide

/-- C2, evaluated at the failing input: with achievements 5 and 7 achieved and
the server list 7, 4294967295 the marking loop writes the bitmap out of bounds
at the second id (4294967295 + 1 wraps to 0, so the bitmap of size 8 is not
resized); no payload is built.  On the list 7 alone the payload is 5. -/
theorem sync_max_id_no_payload :
    sync registry57 [7, 4294967295] = Outcome.fault registry57 ∧
    sync registry57 [7]
      = Outcome.ok (registry57, [{ action := "achieving", achievementid := ['5'] }]) := by
  decide

/-- C3, evaluated at the failing input: achievements 5 and 7 are achieved and
absent from the server list 4294967295, yet no request is queued: the call
faults at the write done[4294967295] into the empty bitmap. -/
theorem sync_max_id_no_request :
    sync registry57 [4294967295] = Outcome.fault registry57 ∧
    (sync registry57 [4294967295]).isOk = false := by
  decide

/-- C5, evaluated at the failing input: the registered achievement 4294967295 is
named by the server, but the call faults at the bitmap write that precedes
setAchieved, and the achievement is still not achieved. -/
theorem sync_max_id_not_marked :
    sync registryMax [4294967295] = Outcome.fault registryMax ∧
    (registryMax.getAchievement 4294967295).map Achievement.isAchieved = some false := by
  decide

/-! ## Lookup after an update of one achievement -/

theorem getAchievement_modify_ne (st : AchievementsStatus) (id j : Nat)
    (f : Achievement → Achievement) (h : j ≠ id) :
    (st.modify id f).getAchievement j = st.getAchievement j := by
  rw [getAchievement_modify]
  cases st.getAchievement j <;> simp [h]

theorem getAchievement_modify_self (st : AchievementsStatus) (id : Nat)
    (f : Achievement → Achievement) (a : Achievement) (h : st.getAchievement id = some a) :
    (st.modify id f).getAchievement id = some (f a) := by
  rw [getAchievement_modify, h]
  simp

/-! ## Persistence -/

theorem loadAchievements_m_variables (nodes : List AchievementNode) :
    ∀ st : AchievementsStatus, (loadAchievements st nodes).m_variables = st.m_variables := by
  induction nodes with
  | nil => intro st; rfl
  | cons n rest ih =>
    intro st
    rw [loadAchievements]
    split
    · exact ih st
    · rw [ih]; rfl

theorem loadAchievements_step (st : AchievementsStatus) (n : AchievementNode)
    (rest : List AchievementNode) :
    loadAchievements st (n :: rest)
      = loadAchievements (st.modify (n.id.getD 0) (fun a => a.load n)) rest := by
  rw [loadAchievements]
  cases h : st.getAchievement (n.id.getD 0) with
  | none => simp only; rw [modify_of_getAchievement_none st _ _ h]
  | some a => rfl

theorem loadAchievements_m_achievements (nodes : List AchievementNode) :
    ∀ st : AchievementsStatus,
      (loadAchievements st nodes).m_achievements
        = st.m_achievements.map (fun e =>
            (e.1, (nodes.filter (fun n => n.id.getD 0 = e.1)).foldl Achievement.load e.2)) := by
  induction nodes with
  | nil => intro st; simp [loadAchievements]
  | cons n rest ih =>
    intro st
    rw [loadAchievements_step, ih]
    unfold AchievementsStatus.modify
    simp only [List.map_map]
    apply List.map_congr_left
    intro e _
    by_cases h : e.1 = n.id.getD 0
    · simp [h, List.filter_cons]
    · have h2 : ¬ n.id.getD 0 = e.1 := fun x => h x.symm
      simp [h, h2, List.filter_cons]

theorem loadVars_m_achievements (cfg : Config) (vars : List (Option Int)) :
    ∀ (st : AchievementsStatus) (i : Nat),
      (loadVars cfg st i vars).m_achievements = st.m_achievements := by
  induction vars with
  | nil => intro st i; rfl
  | cons v rest ih =>
    intro st i
    by_cases hi : i ≥ cfg.ACHIEVE_DATA_NUM
    · simp only [loadVars, hi, if_true]
      exact ih st (i + 1)
    · cases v with
      | none => simp only [loadVars, hi, if_false]; exact ih st (i + 1)
      | some c => simp only [loadVars, hi, if_false]; rw [ih]; rfl

theorem loadVars_getElem? (cfg : Config) (vars : List (Option Int)) :
    ∀ (st : AchievementsStatus) (i j : Nat),
      (loadVars cfg st i vars).m_variables[j]?
        = if i ≤ j ∧ j < cfg.ACHIEVE_DATA_NUM then
            (match vars[j - i]? with
              | some (some v) => (st.m_variables[j]?).map (fun _ => v)
              | _ => st.m_variables[j]?)
          else st.m_variables[j]? := by
  induction vars with
  | nil => intro st i j; simp [loadVars]
  | cons v rest ih =>
    intro st i j
    by_cases hi : i ≥ cfg.ACHIEVE_DATA_NUM
    · simp only [loadVars, hi, if_true]
      rw [ih]
      have h1 : ¬ (i + 1 ≤ j ∧ j < cfg.ACHIEVE_DATA_NUM) := by omega
      have h2 : ¬ (i ≤ j ∧ j < cfg.ACHIEVE_DATA_NUM) := by omega
      simp only [h1, h2, if_false]
    · by_cases hj : i ≤ j ∧ j < cfg.ACHIEVE_DATA_NUM
      · by_cases hij : j = i
        · subst hij
          have h1 : ¬ (j + 1 ≤ j ∧ j < cfg.ACHIEVE_DATA_NUM) := by omega
          cases v with
          | none =>
            simp only [loadVars, hi, if_false]
            rw [ih, if_neg h1, if_pos hj]
            simp only [Nat.sub_self, List.getElem?_cons_zero]
          | some c =>
            simp only [loadVars, hi, if_false]
            rw [ih, if_neg h1, if_pos hj]
            simp only [Nat.sub_self, List.getElem?_cons_zero, setCounter, List.getElem?_set]
            cases hl : st.m_variables[j]? with
            | none =>
              have : ¬ j < st.m_variables.length := by
                intro hlt
                rw [List.getElem?_eq_getElem hlt] at hl
                exact Option.noConfusion hl
              simp [this]
            | some w =>
              have : j < st.m_variables.length := by
                by_contra hge
                rw [List.getElem?_eq_none (not_lt.mp hge)] at hl
                exact Option.noConfusion hl
              simp [this]
        · have h1 : i + 1 ≤ j ∧ j < cfg.ACHIEVE_DATA_NUM := by omega
          have h3 : j - i = (j - (i + 1)) + 1 := by omega
          have h4 : ¬ i = j := fun e => hij e.symm
          cases v with
          | none =>
            simp only [loadVars, hi, if_false]
            rw [ih, if_pos h1, if_pos hj, h3, List.getElem?_cons_succ]
          | some c =>
            simp only [loadVars, hi, if_false]
            rw [ih, if_pos h1, if_pos hj, h3, List.getElem?_cons_succ]
            simp only [setCounter, List.getElem?_set, h4, if_false]
      · have h1 : ¬ (i + 1 ≤ j ∧ j < cfg.ACHIEVE_DATA_NUM) := by omega
        cases v with
        | none =>
          simp only [loadVars, hi, if_false]
          rw [ih, if_neg h1, if_neg hj]
        | some c =>
          simp only [loadVars, hi, if_false]
          rw [ih, if_neg h1, if_neg hj]
          simp only [setCounter, List.getElem?_set]
          by_cases h4 : i = j
          · subst h4
            have hge : cfg.ACHIEVE_DATA_NUM ≤ i := by omega
            exact absurd hge hi
          · simp only [h4, if_false]

theorem save_getNodeData (cfg : Config) (st : AchievementsStatus) :
    (save cfg st).getNodeData = some (some 1) := by
  unfold save XMLNode.getNodeData
  simp only [List.append_assoc, List.findSome?_append]
  have h : (st.m_achievements.map (fun e => XMLChild.achievement e.2.save)).findSome?
      (fun c => match c with
        | XMLChild.data v => some v
        | _ => none) = none := by
    induction st.m_achievements with
    | nil => rfl
    | cons e rest ih => simp only [List.map_cons, List.findSome?_cons]; exact ih
  rw [h]
  rfl

theorem save_getNodesVar (cfg : Config) (st : AchievementsStatus) :
    (save cfg st).getNodesVar
      = (List.range cfg.ACHIEVE_DATA_NUM).map (fun i => some (st.counter i)) := by
  unfold save XMLNode.getNodesVar
  simp only [List.append_assoc, List.filterMap_append]
  have h1 : (st.m_achievements.map (fun e => XMLChild.achievement e.2.save)).filterMap
      (fun c => match c with
        | XMLChild.var v => some v
        | _ => none) = [] := by
    induction st.m_achievements with
    | nil => rfl
    | cons e rest ih => simp only [List.map_cons, List.filterMap_cons]; exact ih
  have h2 : ∀ l : List Nat, (l.map (fun i => XMLChild.var (some (st.counter i)))).filterMap
      (fun c => match c with
        | XMLChild.var v => some v
        | _ => none) = l.map (fun i => some (st.counter i)) := by
    intro l
    induction l with
    | nil => rfl
    | cons e rest ih => simp only [List.map_cons, List.filterMap_cons]; rw [ih]
  rw [h1, h2]
  rfl

/-- C8. When the version that load accepts is the one save writes (1), saving a
status with ACHIEVE_DATA_NUM counters and loading the result into a status whose
counters are as the constructor leaves them (whatever achievements are
registered in it) yields the counters of the saved status. -/
theorem save_load_counters (cfg : Config) (st t : AchievementsStatus)
    (hver : cfg.DATA_VERSION = 1)
    (hlen : st.m_variables.length = cfg.ACHIEVE_DATA_NUM)
    (ht : t.m_variables = List.replicate cfg.ACHIEVE_DATA_NUM 0) :
    (load cfg t (save cfg st)).m_variables = st.m_variables := by
  unfold load
  have hdv : dataVersion (save cfg st) = cfg.DATA_VERSION := by
    unfold dataVersion
    rw [save_getNodeData, hver]
  simp only [hdv, if_true]
  apply List.ext_getElem?
  intro j
  rw [loadVars_getElem?, loadAchievements_m_variables, ht, save_getNodesVar]
  by_cases hj : j < cfg.ACHIEVE_DATA_NUM
  · have h0 : (0 ≤ j ∧ j < cfg.ACHIEVE_DATA_NUM) := ⟨Nat.zero_le _, hj⟩
    rw [if_pos h0]
    have hj2 : j < st.m_variables.length := by rw [hlen]; exact hj
    simp only [Nat.sub_zero, List.getElem?_map, List.getElem?_range hj, Option.map_some',
      List.getElem?_replicate, hj, if_true, counter, List.getD_eq_getElem?_getD,
      List.getElem?_eq_getElem hj2, Option.getD_some]
  · have h0 : ¬ (0 ≤ j ∧ j < cfg.ACHIEVE_DATA_NUM) := fun h => hj h.2
    rw [if_neg h0]
    have hj2 : st.m_variables.length ≤ j := by rw [hlen]; exact not_lt.mp hj
    simp [List.getElem?_replicate, hj, List.getElem?_eq_none hj2]

/-- C9. When the version read from the data element differs from DATA_VERSION
(the data element is missing, has no version, or carries another version; the
value -1 that stands for a missing version is not DATA_VERSION), load leaves
the counters of a freshly constructed status all at 0, whatever the var elements
contain. -/
theorem load_version_mismatch (cfg : Config) (t : AchievementsStatus) (input : XMLNode)
    (hsent : cfg.DATA_VERSION ≠ -1)
    (hmis : ∀ v, input.getNodeData = some (some v) → v ≠ cfg.DATA_VERSION)
    (ht : t.m_variables = List.replicate cfg.ACHIEVE_DATA_NUM 0) :
    (load cfg t input).m_variables = List.replicate cfg.ACHIEVE_DATA_NUM 0 := by
  unfold load
  have hdv : ¬ dataVersion input = cfg.DATA_VERSION := by
    unfold dataVersion
    cases h : input.getNodeData with
    | none => exact fun e => hsent e.symm
    | some o =>
      cases o with
      | none => exact fun e => hsent e.symm
      | some v => exact hmis v h
  simp only [hdv, if_false]
  rw [loadAchievements_m_variables, ht]

theorem load_m_variables_getElem? (cfg : Config) (st : AchievementsStatus) (input : XMLNode)
    (hver : dataVersion input = cfg.DATA_VERSION) (j : Nat) :
    (load cfg st input).m_variables[j]?
      = if j < cfg.ACHIEVE_DATA_NUM then
          (match input.getNodesVar[j]? with
            | some (some v) => (st.m_variables[j]?).map (fun _ => v)
            | _ => st.m_variables[j]?)
        else st.m_variables[j]? := by
  unfold load
  simp only [hver, if_true]
  rw [loadVars_getElem?, loadAchievements_m_variables]
  simp only [Nat.zero_le, true_and, Nat.sub_zero]

theorem load_m_achievements (cfg : Config) (st : AchievementsStatus) (input : XMLNode) :
    (load cfg st input).m_achievements
      = (loadAchievements st input.getNodesAchievement).m_achievements := by
  unfold load
  simp only
  split
  · rw [loadVars_m_achievements]
  · rfl

/-- C10. For a version-matching input and a status with ACHIEVE_DATA_NUM
counters, load sets counter i to the value of the i-th var entry for every i
below both the number of var entries and ACHIEVE_DATA_NUM (a var entry without a
counter attribute leaves its counter as it was), leaves the counters from the
number of var entries on unchanged, does not depend on var entries with index
ACHIEVE_DATA_NUM or more, and gives every registered achievement exactly the
saved achievement elements carrying its id, in order: elements with an
unregistered id change nothing, and the keys of the registry stay the same. -/
theorem load_tolerant (cfg : Config) (st : AchievementsStatus) (input : XMLNode)
    (hver : dataVersion input = cfg.DATA_VERSION)
    (hlen : st.m_variables.length = cfg.ACHIEVE_DATA_NUM) :
    (∀ i v, i < min input.getNodesVar.length cfg.ACHIEVE_DATA_NUM →
        input.getNodesVar[i]? = some (some v) → (load cfg st input).counter i = v) ∧
    (∀ i, input.getNodesVar[i]? = some none →
        (load cfg st input).counter i = st.counter i) ∧
    (∀ i, input.getNodesVar.length ≤ i → (load cfg st input).counter i = st.counter i) ∧
    (∀ input2 : XMLNode, dataVersion input2 = cfg.DATA_VERSION →
        input2.getNodesVar.take cfg.ACHIEVE_DATA_NUM
          = input.getNodesVar.take cfg.ACHIEVE_DATA_NUM →
        (load cfg st input2).m_variables = (load cfg st input).m_variables) ∧
    (load cfg st input).m_achievements
      = st.m_achievements.map (fun e =>
          (e.1, (input.getNodesAchievement.filter (fun n => n.id.getD 0 = e.1)).foldl
            Achievement.load e.2)) ∧
    (load cfg st input).m_achievements
      = (loadAchievements st (input.getNodesAchievement.filter
          (fun n => (st.getAchievement (n.id.getD 0)).isSome))).m_achievements ∧
    (load cfg st input).m_achievements.map (fun e => e.1)
      = st.m_achievements.map (fun e => e.1) := by
  refine ⟨?_, ?_, ?_, ?_, ?_, ?_, ?_⟩
  · intro i v hi hv
    have hi1 : i < cfg.ACHIEVE_DATA_NUM := lt_of_lt_of_le hi (min_le_right _ _)
    have hi2 : i < st.m_variables.length := by rw [hlen]; exact hi1
    unfold counter
    rw [List.getD_eq_getElem?_getD, load_m_variables_getElem? cfg st input hver, if_pos hi1, hv]
    simp [List.getElem?_eq_getElem hi2]
  · intro i hv
    unfold counter
    rw [List.getD_eq_getElem?_getD, load_m_variables_getElem? cfg st input hver, hv]
    simp
  · intro i hi
    unfold counter
    rw [List.getD_eq_getElem?_getD, load_m_variables_getElem? cfg st input hver,
      List.getElem?_eq_none hi]
    simp
  · intro input2 hver2 htake
    apply List.ext_getElem?
    intro j
    rw [load_m_variables_getElem? cfg st input hver,
      load_m_variables_getElem? cfg st input2 hver2]
    by_cases hj : j < cfg.ACHIEVE_DATA_NUM
    · rw [if_pos hj, if_pos hj, ← List.getElem?_take_of_lt hj, htake,
        List.getElem?_take_of_lt hj]
    · rw [if_neg hj, if_neg hj]
  · rw [load_m_achievements, loadAchievements_m_achievements]
  · rw [load_m_achievements, loadAchievements_m_achievements,
      loadAchievements_m_achievements]
    apply List.map_congr_left
    intro e he
    have hreg : (st.getAchievement e.1).isSome = true := by
      unfold getAchievement
      rw [List.lookup_isSome_iff]
      exact ⟨e, he, by simp⟩
    rw [List.filter_filter]
    have hf : (input.getNodesAchievement.filter
        (fun n => decide (n.id.getD 0 = e.1) && (st.getAchievement (n.id.getD 0)).isSome))
        = input.getNodesAchievement.filter (fun n => decide (n.id.getD 0 = e.1)) := by
      apply List.filter_congr
      intro n _
      by_cases hn : n.id.getD 0 = e.1
      · simp [hn, hreg]
      · simp [hn]
    rw [hf]
  · rw [load_m_achievements, loadAchievements_m_achievements, List.map_map]
    rfl

/-- Witness for C8: the example status after three wins, saved and loaded into
the fresh example status. -/
theorem save_load_counters_witness :
    (exampleConfig.DATA_VERSION = 1 ∧
      afterThreeWins.m_variables.length = exampleConfig.ACHIEVE_DATA_NUM ∧
      freshBoth.m_variables = List.replicate exampleConfig.ACHIEVE_DATA_NUM 0) ∧
    (load exampleConfig freshBoth (save exampleConfig afterThreeWins)).m_variables
      = afterThreeWins.m_variables ∧
    afterThreeWins.m_variables = [0, 3, 0, 0, 0, 0] :=
  ⟨by decide,
    save_load_counters exampleConfig afterThreeWins freshBoth (by decide) (by decide)
      (by decide),
    by decide⟩

/-- Witness for C9: an input whose data element carries version 2, and an input
without data element, both with var elements. -/
theorem load_version_mismatch_witness :
    (exampleConfig.DATA_VERSION ≠ -1 ∧
      (∀ v, staleInput.getNodeData = some (some v) → v ≠ exampleConfig.DATA_VERSION) ∧
      (∀ v, noDataInput.getNodeData = some (some v) → v ≠ exampleConfig.DATA_VERSION) ∧
      freshBoth.m_variables = List.replicate exampleConfig.ACHIEVE_DATA_NUM 0) ∧
    (load exampleConfig freshBoth staleInput).m_variables
      = List.replicate exampleConfig.ACHIEVE_DATA_NUM 0 ∧
    (load exampleConfig freshBoth noDataInput).m_variables
      = List.replicate exampleConfig.ACHIEVE_DATA_NUM 0 :=
  have h1 : ∀ v, staleInput.getNodeData = some (some v) → v ≠ exampleConfig.DATA_VERSION :=
    fun v h => by
      have h2 : staleInput.getNodeData = some (some 2) := by decide
      rw [h2] at h
      cases h
      decide
  have h3 : ∀ v, noDataInput.getNodeData = some (some v) → v ≠ exampleConfig.DATA_VERSION :=
    fun v h => by
      have h2 : noDataInput.getNodeData = none := by decide
      rw [h2] at h
      cases h
  ⟨⟨by decide, h1, h3, by decide⟩,
    load_version_mismatch exampleConfig freshBoth staleInput (by decide) h1 (by decide),
    load_version_mismatch exampleConfig freshBoth noDataInput (by decide) h3 (by decide)⟩

/-- Witness for C10: an input of version 1 with eight var entries, the second
without counter attribute, and saved achievement elements for the registered id
6, the unregistered id 9 and without id. -/
theorem load_tolerant_witness :
    (dataVersion tolerantInput = exampleConfig.DATA_VERSION ∧
      freshBoth.m_variables.length = exampleConfig.ACHIEVE_DATA_NUM) ∧
    (load exampleConfig freshBoth tolerantInput).counter 0 = 4 ∧
    (load exampleConfig freshBoth tolerantInput).counter 1 = freshBoth.counter 1 ∧
    (load exampleConfig freshBoth tolerantInput).counter 8 = freshBoth.counter 8 ∧
    (load exampleConfig freshBoth tolerantInput).m_achievements.map (fun e => e.1)
      = freshBoth.m_achievements.map (fun e => e.1) ∧
    load exampleConfig freshBoth tolerantInput
      = { freshBoth with
          m_variables := [4, 0, 3, 5, 5, 5]
          m_achievements :=
            [(6, { goldDriver3 with achieved := true, progress := [("standard", 3)] }),
             (8, unstoppable5)] } :=
  have h := load_tolerant exampleConfig freshBoth tolerantInput (by decide) (by decide)
  ⟨by decide, h.1 0 4 (by decide) (by decide), h.2.1 1 (by decide),
    h.2.2.1 8 (by decide), h.2.2.2.2.2.2, by decide⟩

/-! ## The registry invariant -/

theorem mem_mapAssign (m : List (Nat × Achievement)) (k : Nat) (v : Achievement)
    (e : Nat × Achievement) (he : e ∈ mapAssign m k v) : e = (k, v) ∨ e ∈ m := by
  induction m with
  | nil =>
    simp only [mapAssign, List.mem_singleton] at he
    exact Or.inl he
  | cons e0 rest ih =>
    obtain ⟨k0, v0⟩ := e0
    simp only [mapAssign] at he
    by_cases h1 : k < k0
    · simp only [h1, if_true, List.mem_cons] at he
      rcases he with h | h | h
      · exact Or.inl h
      · exact Or.inr (by rw [h]; exact List.mem_cons_self _ _)
      · exact Or.inr (List.mem_cons_of_mem _ h)
    · by_cases h2 : k = k0
      · subst h2
        simp only [lt_irrefl, if_false, if_true, List.mem_cons] at he
        rcases he with h | h
        · exact Or.inl h
        · exact Or.inr (List.mem_cons_of_mem _ h)
      · simp only [h1, h2, if_false, List.mem_cons] at he
        rcases he with h | h
        · exact Or.inr (by rw [h]; exact List.mem_cons_self _ _)
        · rcases ih h with h3 | h3
          · exact Or.inl h3
          · exact Or.inr (List.mem_cons_of_mem _ h3)

theorem mapAssign_pairwise (m : List (Nat × Achievement)) (k : Nat) (v : Achievement)
    (hp : m.Pairwise (fun a b => a.1 < b.1)) :
    (mapAssign m k v).Pairwise (fun a b => a.1 < b.1) := by
  induction m with
  | nil => simp [mapAssign]
  | cons e0 rest ih =>
    obtain ⟨k0, v0⟩ := e0
    rw [List.pairwise_cons] at hp
    simp only [mapAssign]
    by_cases h1 : k < k0
    · simp only [h1, if_true]
      rw [List.pairwise_cons]
      refine ⟨?_, List.pairwise_cons.mpr hp⟩
      intro e he
      rcases List.mem_cons.mp he with h | h
      · rw [h]; exact h1
      · exact lt_trans h1 (hp.1 e h)
    · by_cases h2 : k = k0
      · subst h2
        simp only [lt_irrefl, if_false, if_true]
        rw [List.pairwise_cons]
        exact ⟨fun e he => hp.1 e he, hp.2⟩
      · simp only [h1, h2, if_false]
        rw [List.pairwise_cons]
        refine ⟨?_, ih hp.2⟩
        intro e he
        rcases mem_mapAssign rest k v e he with h | h
        · rw [h]
          show k0 < k
          omega
        · exact hp.1 e h

/-- The constructor leaves a registry that satisfies the invariant. -/
theorem ctor_RegistryWF (cfg : Config) : (ctor cfg).RegistryWF := by
  unfold RegistryWF ctor
  simp

/-- The call add keeps the invariant of the registry when the id of the added
achievement is a `uint32_t`. -/
theorem add_RegistryWF (st : AchievementsStatus) (a : Achievement)
    (hwf : st.RegistryWF) (ha : a.getID < 4294967296) : (st.add a).RegistryWF := by
  unfold RegistryWF AchievementsStatus.add
  simp only
  refine ⟨mapAssign_pairwise _ _ _ hwf.1, ?_⟩
  intro e he
  rcases mem_mapAssign _ _ _ e he with h | h
  · rw [h]; exact ⟨rfl, ha⟩
  · exact hwf.2 e h

/-! ## Counter operations: reset -/

theorem getD_set_self (l : List Int) (k : Nat) (v : Int) (hk : k < l.length) :
    (l.set k v).getD k 0 = v := by
  simp [List.getD_eq_getElem?_getD, List.getElem?_set, hk]

theorem getD_set_ne (l : List Int) (k i : Nat) (v : Int) (hi : i ≠ k) :
    (l.set k v).getD i 0 = l.getD i 0 := by
  have h : ¬ k = i := fun e => hi e.symm
  simp [List.getD_eq_getElem?_getD, List.getElem?_set, h]

/-- C12. For a status with ACHIEVE_DATA_NUM counters and an in-range index k,
after resetDataVar(k) counter k is 0, every other counter is unchanged, the
number of counters is unchanged, and the registry with every achievement's goal
progress and achieved flag, the online flag and the valid flag are unchanged. -/
theorem resetDataVar_frame (cfg : Config) (st : AchievementsStatus) (k : Nat)
    (hlen : st.m_variables.length = cfg.ACHIEVE_DATA_NUM)
    (hk : k < cfg.ACHIEVE_DATA_NUM) :
    (resetDataVar cfg st k).counter k = 0 ∧
    (∀ i, i ≠ k → (resetDataVar cfg st k).counter i = st.counter i) ∧
    (resetDataVar cfg st k).m_variables.length = st.m_variables.length ∧
    (resetDataVar cfg st k).m_achievements = st.m_achievements ∧
    (resetDataVar cfg st k).m_online = st.m_online ∧
    (resetDataVar cfg st k).m_valid = st.m_valid := by
  unfold resetDataVar
  rw [if_pos hk]
  refine ⟨?_, ?_, ?_, rfl, rfl, rfl⟩
  · exact getD_set_self _ _ _ (by rw [hlen]; exact hk)
  · intro i hi
    exact getD_set_ne _ _ _ _ hi
  · simp [setCounter]

/-- Witness for C12: resetting counter 2 of the example with counters 1 to 6. -/
theorem resetDataVar_frame_witness :
    (eventStatus.m_variables.length = exampleConfig.ACHIEVE_DATA_NUM ∧
      2 < exampleConfig.ACHIEVE_DATA_NUM) ∧
    ((resetDataVar exampleConfig eventStatus 2).counter 2 = 0 ∧
      (∀ i, i ≠ 2 → (resetDataVar exampleConfig eventStatus 2).counter i
          = eventStatus.counter i) ∧
      (resetDataVar exampleConfig eventStatus 2).m_variables.length
        = eventStatus.m_variables.length ∧
      (resetDataVar exampleConfig eventStatus 2).m_achievements
        = eventStatus.m_achievements ∧
      (resetDataVar exampleConfig eventStatus 2).m_online = eventStatus.m_online ∧
      (resetDataVar exampleConfig eventStatus 2).m_valid = eventStatus.m_valid) ∧
    (resetDataVar exampleConfig eventStatus 2).m_variables = [1, 2, 0, 4, 5, 6] :=
  ⟨by decide, resetDataVar_frame exampleConfig eventStatus 2 (by decide) (by decide),
    by decide⟩

/-! ## The registry: add and getAchievement -/

theorem lookup_mapAssign_self (m : List (Nat × Achievement)) (k : Nat) (v : Achievement) :
    (mapAssign m k v).lookup k = some v := by
  induction m with
  | nil => simp [mapAssign, List.lookup_cons]
  | cons e rest ih =>
    obtain ⟨k0, v0⟩ := e
    by_cases h1 : k < k0
    · simp [mapAssign, h1, List.lookup_cons]
    · by_cases h2 : k = k0
      · subst h2
        simp [mapAssign, List.lookup_cons]
      · have hb : (k == k0) = false := by simpa using h2
        simp only [mapAssign, h1, h2, if_false, List.lookup_cons, hb]
        exact ih

theorem lookup_mapAssign_ne (m : List (Nat × Achievement)) (k j : Nat) (v : Achievement)
    (hj : j ≠ k) : (mapAssign m k v).lookup j = m.lookup j := by
  have hjk : (j == k) = false := by simpa using hj
  induction m with
  | nil => simp [mapAssign, List.lookup_cons, hjk]
  | cons e rest ih =>
    obtain ⟨k0, v0⟩ := e
    by_cases h1 : k < k0
    · simp only [mapAssign, h1, if_true]
      rw [List.lookup_cons, hjk]
    · by_cases h2 : k = k0
      · subst h2
        simp only [mapAssign, lt_irrefl, if_false, if_true, List.lookup_cons, hjk]
      · simp only [mapAssign, h1, h2, if_false, List.lookup_cons]
        rw [ih]

theorem filter_ne_mapAssign (m : List (Nat × Achievement)) (k : Nat) (v : Achievement) :
    (mapAssign m k v).filter (fun e => decide (e.1 ≠ k))
      = m.filter (fun e => decide (e.1 ≠ k)) := by
  induction m with
  | nil => simp [mapAssign]
  | cons e rest ih =>
    obtain ⟨k0, v0⟩ := e
    by_cases h1 : k < k0
    · simp [mapAssign, h1, List.filter_cons]
    · by_cases h2 : k = k0
      · subst h2
        simp [mapAssign, List.filter_cons]
      · simp only [mapAssign, h1, h2, if_false, List.filter_cons]
        rw [ih]

theorem filter_eq_nil_of_lt (m : List (Nat × Achievement)) (k : Nat)
    (h : ∀ e ∈ m, k < e.1) : m.filter (fun e => decide (e.1 = k)) = [] := by
  rw [List.filter_eq_nil_iff]
  intro e he
  have := h e he
  simp only [decide_eq_true_eq]
  omega

theorem filter_eq_mapAssign (m : List (Nat × Achievement)) (k : Nat) (v : Achievement)
    (hp : m.Pairwise (fun a b => a.1 < b.1)) :
    (mapAssign m k v).filter (fun e => decide (e.1 = k)) = [(k, v)] := by
  induction m with
  | nil => simp [mapAssign]
  | cons e rest ih =>
    obtain ⟨k0, v0⟩ := e
    rw [List.pairwise_cons] at hp
    by_cases h1 : k < k0
    · have hnil : ((k0, v0) :: rest).filter (fun e => decide (e.1 = k)) = [] := by
        apply filter_eq_nil_of_lt
        intro e he
        rcases List.mem_cons.mp he with h | h
        · rw [h]; exact h1
        · exact lt_trans h1 (hp.1 e h)
      simp only [mapAssign, h1, if_true]
      rw [List.filter_cons]
      simp only [decide_True, if_true, hnil]
    · by_cases h2 : k = k0
      · subst h2
        have hnil : rest.filter (fun e => decide (e.1 = k)) = [] :=
          filter_eq_nil_of_lt rest k (fun e he => hp.1 e he)
        simp only [mapAssign, lt_irrefl, if_false, if_true]
        rw [List.filter_cons]
        simp only [decide_True, if_true, hnil]
      · have h3 : ¬ k0 = k := fun e => h2 e.symm
        simp only [mapAssign, h1, h2, if_false]
        rw [List.filter_cons]
        simp only [h3, decide_False, Bool.false_eq_true, if_false]
        exact ih hp.2

theorem getAchievement_addAll_none (as : List Achievement) (j : Nat) :
    ∀ st : AchievementsStatus, st.getAchievement j = none →
      (∀ b ∈ as, b.getID ≠ j) → (as.foldl add st).getAchievement j = none := by
  induction as with
  | nil => intro st h _; exact h
  | cons a rest ih =>
    intro st h hne
    rw [List.foldl_cons]
    apply ih
    · unfold getAchievement AchievementsStatus.add
      simp only
      rw [lookup_mapAssign_ne _ _ _ _ (fun e => hne a (List.mem_cons_self _ _) e.symm)]
      exact h
    · intro b hb
      exact hne b (List.mem_cons_of_mem _ hb)

/-- C14. For a registry kept as a std::map (keys strictly ascending) and an
achievement a: after add(a), getAchievement(a.id) returns a, the registry holds
exactly one entry under that id (an earlier one is replaced), every other entry
is as before and getAchievement(j) for every other id j returns what it returned
before.  In a registry built from the constructor by any sequence of add calls,
getAchievement of an id that was not added returns absent; and a call of
getAchievement leaves the keys of the registry as they were (its operator[] is
never reached for an absent key, so no entry is inserted). -/
theorem add_getAchievement (cfg : Config) (st : AchievementsStatus) (a : Achievement)
    (hp : st.m_achievements.Pairwise (fun x y => x.1 < y.1)) :
    (st.add a).getAchievement a.getID = some a ∧
    (st.add a).m_achievements.filter (fun e => decide (e.1 = a.getID)) = [(a.getID, a)] ∧
    (st.add a).m_achievements.filter (fun e => decide (e.1 ≠ a.getID))
      = st.m_achievements.filter (fun e => decide (e.1 ≠ a.getID)) ∧
    (∀ j, j ≠ a.getID → (st.add a).getAchievement j = st.getAchievement j) ∧
    (∀ (as : List Achievement) (j : Nat), (∀ b ∈ as, b.getID ≠ j) →
      (as.foldl add (ctor cfg)).getAchievement j = none) ∧
    (∀ j, getAchievementKeys st j = st.m_achievements.map (fun e => e.1)) := by
  refine ⟨lookup_mapAssign_self _ _ _, filter_eq_mapAssign _ _ _ hp,
    filter_ne_mapAssign _ _ _, ?_, ?_, ?_⟩
  · intro j hj
    exact lookup_mapAssign_ne _ _ _ _ hj
  · intro as j hne
    exact getAchievement_addAll_none as j (ctor cfg) rfl hne
  · intro j
    unfold getAchievementKeys mapIndexKeys
    split <;> rfl

/-- Witness for C14: the gold driver of the fresh example status is replaced by
its achieved version; unstoppable (id 8) is still returned, id 7 was never added
and is absent, and looking it up inserts nothing. -/
theorem add_getAchievement_witness :
    freshBoth.m_achievements.Pairwise (fun x y => x.1 < y.1) ∧
    (freshBoth.add goldDriverAchieved).getAchievement 6 = some goldDriverAchieved ∧
    (freshBoth.add goldDriverAchieved).getAchievement 8 = freshBoth.getAchievement 8 ∧
    ([goldDriver3, unstoppable5].foldl add (ctor exampleConfig)).getAchievement 7 = none ∧
    getAchievementKeys freshBoth 7 = freshBoth.m_achievements.map (fun e => e.1) ∧
    (freshBoth.add goldDriverAchieved).m_achievements
      = [(6, goldDriverAchieved), (8, unstoppable5)] :=
  have h := add_getAchievement exampleConfig freshBoth goldDriverAchieved (by decide)
  ⟨by decide, h.1, h.2.2.2.1 8 (by decide),
    h.2.2.2.2.1 [goldDriver3, unstoppable5] 7 (by decide), h.2.2.2.2.2 7, by decide⟩

/-! ## The save contract -/

theorem save_getNodesAchievement (cfg : Config) (st : AchievementsStatus) :
    (save cfg st).getNodesAchievement = st.m_achievements.map (fun e => e.2.save) := by
  unfold save XMLNode.getNodesAchievement
  simp only [List.append_assoc, List.filterMap_append]
  have h1 : ∀ m : List (Nat × Achievement),
      (m.map (fun e => XMLChild.achievement e.2.save)).filterMap
        (fun c => match c with
          | XMLChild.achievement n => some n
          | _ => none) = m.map (fun e => e.2.save) := by
    intro m
    induction m with
    | nil => rfl
    | cons e rest ih => simp only [List.map_cons, List.filterMap_cons]; rw [ih]
  have h2 : ∀ l : List Nat, (l.map (fun i => XMLChild.var (some (st.counter i)))).filterMap
      (fun c => match c with
        | XMLChild.achievement n => some n
        | _ => none) = [] := by
    intro l
    induction l with
    | nil => rfl
    | cons e rest ih => simp only [List.map_cons, List.filterMap_cons]; exact ih
  rw [h1, h2]
  simp

/-- C15. When DATA_VERSION is the version 1 that save writes, and the registry
is a std::map filled through add, the element written by save consists of the
per-achievement elements, then one data element whose version is DATA_VERSION,
then the var entries; there are exactly ACHIEVE_DATA_NUM var entries and the
i-th carries the value of counter i; the per-achievement elements are those of
the registered achievements, one each, with strictly ascending ids. -/
theorem save_contract (cfg : Config) (st : AchievementsStatus)
    (hver : cfg.DATA_VERSION = 1) (hwf : st.RegistryWF) :
    (save cfg st).children
      = (save cfg st).getNodesAchievement.map XMLChild.achievement
        ++ XMLChild.data (some cfg.DATA_VERSION)
          :: (save cfg st).getNodesVar.map XMLChild.var ∧
    (save cfg st).getNodeData = some (some cfg.DATA_VERSION) ∧
    (save cfg st).getNodesVar.length = cfg.ACHIEVE_DATA_NUM ∧
    (∀ i, i < cfg.ACHIEVE_DATA_NUM →
      (save cfg st).getNodesVar[i]? = some (some (st.counter i))) ∧
    (save cfg st).getNodesAchievement = st.m_achievements.map (fun e => e.2.save) ∧
    (save cfg st).getNodesAchievement.map (fun n => n.id)
      = st.m_achievements.map (fun e => some e.1) ∧
    ((save cfg st).getNodesAchievement.map (fun n => n.id.getD 0)).Pairwise
      (fun a b => a < b) := by
  have hids : st.m_achievements.map (fun e => e.2.save.id)
      = st.m_achievements.map (fun e => some e.1) := by
    apply List.map_congr_left
    intro e he
    have := (hwf.2 e he).1
    simp only [Achievement.getID] at this
    simp [Achievement.save, this]
  refine ⟨?_, ?_, ?_, ?_, save_getNodesAchievement cfg st, ?_, ?_⟩
  · rw [save_getNodesAchievement, save_getNodesVar, hver]
    unfold save
    simp [List.map_map, Function.comp_def]
  · rw [save_getNodeData, hver]
  · rw [save_getNodesVar]; simp
  · intro i hi
    rw [save_getNodesVar]
    simp [List.getElem?_range hi]
  · rw [save_getNodesAchievement, List.map_map]
    exact hids
  · rw [save_getNodesAchievement, List.map_map]
    have h2 : st.m_achievements.map ((fun n : AchievementNode => n.id.getD 0) ∘
        (fun e => e.2.save)) = st.m_achievements.map (fun e => e.1) := by
      apply List.map_congr_left
      intro e he
      have := (hwf.2 e he).1
      simp only [Achievement.getID] at this
      simp [Achievement.save, this]
    rw [h2, List.pairwise_map]
    exact hwf.1

/-- Witness for C15: the example status after three wins. -/
theorem save_contract_witness :
    (exampleConfig.DATA_VERSION = 1 ∧ afterThreeWins.RegistryWF) ∧
    (save exampleConfig afterThreeWins).getNodeData
      = some (some exampleConfig.DATA_VERSION) ∧
    (save exampleConfig afterThreeWins).getNodesVar.length
      = exampleConfig.ACHIEVE_DATA_NUM ∧
    (save exampleConfig afterThreeWins).getNodesVar[1]?
      = some (some (afterThreeWins.counter 1)) ∧
    ((save exampleConfig afterThreeWins).getNodesAchievement.map
      (fun n => n.id.getD 0)).Pairwise (fun a b => a < b) ∧
    (save exampleConfig afterThreeWins).children
      = [XMLChild.achievement goldDriverAchieved.save,
         XMLChild.achievement { id := some 8, achieved := false, progress := [("wins", 0)] },
         XMLChild.data (some 1),
         XMLChild.var (some 0), XMLChild.var (some 3), XMLChild.var (some 0),
         XMLChild.var (some 0), XMLChild.var (some 0), XMLChild.var (some 0)] :=
  have h := save_contract exampleConfig afterThreeWins (by decide) (by decide)
  ⟨by decide, h.2.1, h.2.2.1, h.2.2.2.1 1 (by decide), h.2.2.2.2.2.2, by decide⟩

/-! ## Bounds of the bitmap write -/

/-- C16, evaluated at the failing input: for the server id 4294967295 the size
asked of the bitmap, id + 1 in 32-bit unsigned arithmetic, is 0, so the bitmap is
not resized, and the write done[4294967295] is at an index that is not below its
size: 0 when the id comes first, 8 when it follows the id 7.  The marking loop
faults in both cases, whatever is registered. -/
theorem syncMark_write_out_of_bounds :
    wrapUInt32 (4294967295 + 1) = 0 ∧
    ¬ (4294967295 < ([] : List Bool).length) ∧
    syncMark (ctor exampleConfig) [] [4294967295] = Outcome.fault (ctor exampleConfig) ∧
    (resize [] (wrapUInt32 (7 + 1))).length = 8 ∧
    ¬ (4294967295 < (resize [] (wrapUInt32 (7 + 1))).length) ∧
    syncMark (ctor exampleConfig) [] [7, 4294967295]
      = Outcome.fault (ctor exampleConfig) := by
  decide

/-! ## Frame of sync and of the event fan-out -/

theorem modify_keys (st : AchievementsStatus) (id : Nat) (f : Achievement → Achievement) :
    (st.modify id f).m_achievements.map (fun e => e.1)
      = st.m_achievements.map (fun e => e.1) := by
  unfold AchievementsStatus.modify
  simp only [List.map_map]
  apply List.map_congr_left
  intro e _
  by_cases h : e.1 = id <;> simp [h]

theorem fanOut_spec (hook : Achievement → Achievement) (m : List (Nat × Achievement)) :
    (fanOut hook m).1 = m.map (fun e => (e.1, hook e.2)) ∧
    (fanOut hook m).2 = m.map (fun e => e.2.getID) := by
  induction m with
  | nil => exact ⟨rfl, rfl⟩
  | cons e rest ih =>
    simp only [fanOut, List.map_cons]
    exact ⟨by rw [ih.1], by rw [ih.2]⟩

/-- Frame of sync on server lists without the id 2^32 - 1: the call returns, and
the status it returns has the counters, the online flag and the keys of the
registry of the status before the call. -/
theorem sync_frame (st : AchievementsStatus) (ids : List Nat)
    (hS : ∀ id ∈ ids, id < 4294967295) :
    ∃ st1 reqs, sync st ids = Outcome.ok (st1, reqs) ∧
      st1.m_variables = st.m_variables ∧
      st1.m_online = st.m_online ∧
      st1.m_achievements.map (fun e => e.1) = st.m_achievements.map (fun e => e.1) := by
  obtain ⟨done, hrun, _⟩ := syncMark_spec ids st [] hS
  have hret : ∃ reqs, sync st ids = Outcome.ok (markAll st ids, reqs) := by
    unfold sync
    rw [hrun]
    simp only
    split
    · exact ⟨_, rfl⟩
    · exact ⟨_, rfl⟩
  obtain ⟨reqs, hreqs⟩ := hret
  refine ⟨markAll st ids, reqs, hreqs, rfl, rfl, ?_⟩
  unfold markAll
  simp only [List.map_map]
  apply List.map_congr_left
  intro e _
  by_cases h : e.1 ∈ ids <;> simp [h]

/-- Frame of the event fan-out: onRaceEnd and onLapEnd leave the counters, the
online flag and the keys of the registry unchanged and replace every registered
achievement by the result of one call of its hook; with a registry filled
through add, the hook calls are made on the registered ids in strictly ascending
order, each id once. -/
theorem events_frame (st : AchievementsStatus) (hwf : st.RegistryWF) :
    ((onRaceEnd st).1.m_variables = st.m_variables ∧
      (onRaceEnd st).1.m_online = st.m_online ∧
      (onRaceEnd st).1.m_achievements.map (fun e => e.1)
        = st.m_achievements.map (fun e => e.1) ∧
      (onRaceEnd st).1.m_achievements
        = st.m_achievements.map (fun e => (e.1, e.2.onRaceEnd)) ∧
      (onRaceEnd st).2 = st.m_achievements.map (fun e => e.1) ∧
      (onRaceEnd st).2.Pairwise (fun a b => a < b)) ∧
    ((onLapEnd st).1.m_variables = st.m_variables ∧
      (onLapEnd st).1.m_online = st.m_online ∧
      (onLapEnd st).1.m_achievements.map (fun e => e.1)
        = st.m_achievements.map (fun e => e.1) ∧
      (onLapEnd st).1.m_achievements
        = st.m_achievements.map (fun e => (e.1, e.2.onLapEnd)) ∧
      (onLapEnd st).2 = st.m_achievements.map (fun e => e.1) ∧
      (onLapEnd st).2.Pairwise (fun a b => a < b)) := by
  have hids : st.m_achievements.map (fun e => e.2.getID)
      = st.m_achievements.map (fun e => e.1) :=
    List.map_congr_left (fun e he => (hwf.2 e he).1)
  have hasc : (st.m_achievements.map (fun e => e.1)).Pairwise (fun a b => a < b) := by
    rw [List.pairwise_map]; exact hwf.1
  refine ⟨?_, ?_⟩
  · have h := fanOut_spec Achievement.onRaceEnd st.m_achievements
    have h1 : (onRaceEnd st).1.m_achievements
        = st.m_achievements.map (fun e => (e.1, e.2.onRaceEnd)) := h.1
    have h2 : (onRaceEnd st).2 = st.m_achievements.map (fun e => e.1) := h.2.trans hids
    refine ⟨rfl, rfl, ?_, h1, h2, ?_⟩
    · rw [h1, List.map_map]; rfl
    · rw [h2]; exact hasc
  · have h := fanOut_spec Achievement.onLapEnd st.m_achievements
    have h1 : (onLapEnd st).1.m_achievements
        = st.m_achievements.map (fun e => (e.1, e.2.onLapEnd)) := h.1
    have h2 : (onLapEnd st).2 = st.m_achievements.map (fun e => e.1) := h.2.trans hids
    refine ⟨rfl, rfl, ?_, h1, h2, ?_⟩
    · rw [h1, List.map_map]; rfl
    · rw [h2]; exact hasc

/-- C18, evaluated at the failing input: on the example status the call
sync of the list 4, 4294967295 marks achievement 4 and then, at the id
4294967295, writes the bitmap of size 5 at an index that is not below its size;
the call does not return.  On the list 4 alone it returns with the counters, the
online flag and the registry keys unchanged, and onRaceEnd and onLapEnd call the
hooks on the ids 3, 4, 9 in this order. -/
theorem sync_max_id_no_frame :
    (sync eventStatus [4, 4294967295]).isOk = false ∧
    sync eventStatus [4, 4294967295]
      = Outcome.fault (eventStatus.modify 4 Achievement.setAchieved) ∧
    ¬ (4294967295 < (resize [] (wrapUInt32 (4 + 1))).length) ∧
    sync eventStatus [4]
      = Outcome.ok (eventStatus.modify 4 Achievement.setAchieved, []) ∧
    (onRaceEnd eventStatus).2 = [3, 4, 9] ∧
    (onLapEnd eventStatus).2 = [3, 4, 9] := by
  decide

/-! ## The receiver and the current player's status -/

theorem modifyCurrent_current (w : World) (id : Nat) (f : Achievement → Achievement) :
    (w.modifyCurrent id f).current = w.current.modify id f := by
  unfold World.modifyCurrent World.current
  cases w.other <;> rfl

theorem modifyCurrent_receiver_m_variables (w : World) (id : Nat)
    (f : Achievement → Achievement) :
    (w.modifyCurrent id f).receiver.m_variables = w.receiver.m_variables := by
  unfold World.modifyCurrent
  cases w.other <;> rfl

theorem modifyCurrent_other_isSome (w : World) (id : Nat) (f : Achievement → Achievement) :
    (w.modifyCurrent id f).other.isSome = w.other.isSome := by
  unfold World.modifyCurrent
  cases w.other <;> rfl

theorem modifyCurrent_receiver_of_other (w : World) (id : Nat)
    (f : Achievement → Achievement) (h : w.other.isSome = true) :
    (w.modifyCurrent id f).receiver = w.receiver := by
  unfold World.modifyCurrent
  cases ho : w.other with
  | none => rw [ho] at h; exact absurd h (by decide)
  | some s => rfl

theorem modifyCurrent_counter (w : World) (id : Nat) (f : Achievement → Achievement)
    (i : Nat) : (w.modifyCurrent id f).receiver.counter i = w.receiver.counter i := by
  unfold counter
  rw [modifyCurrent_receiver_m_variables]

theorem current_setCounter (w : World) (i : Nat) (v : Int) (j : Nat) :
    (World.current { w with receiver := w.receiver.setCounter i v }).getAchievement j
      = w.current.getAchievement j := by
  unfold World.current
  cases w.other <;> rfl

/-- The world the first block of updateAchievementsProgress leaves. -/
theorem unstoppable_block (cfg : Config) (w : World) (u : Achievement) (c : Int) :
    (if (!u.isAchieved) = true then
        w.modifyCurrent cfg.ACHIEVE_UNSTOPPABLE (fun a => a.reset.increase "wins" "wins" c)
      else w).receiver.m_variables = w.receiver.m_variables ∧
    (if (!u.isAchieved) = true then
        w.modifyCurrent cfg.ACHIEVE_UNSTOPPABLE (fun a => a.reset.increase "wins" "wins" c)
      else w).other.isSome = w.other.isSome ∧
    (w.other.isSome = true →
      (if (!u.isAchieved) = true then
        w.modifyCurrent cfg.ACHIEVE_UNSTOPPABLE (fun a => a.reset.increase "wins" "wins" c)
      else w).receiver = w.receiver) ∧
    (∀ j, ((if (!u.isAchieved) = true then
        w.modifyCurrent cfg.ACHIEVE_UNSTOPPABLE (fun a => a.reset.increase "wins" "wins" c)
      else w).current.getAchievement j).isSome = (w.current.getAchievement j).isSome) := by
  by_cases h : (!u.isAchieved) = true
  · simp only [h, if_true]
    refine ⟨modifyCurrent_receiver_m_variables _ _ _, modifyCurrent_other_isSome _ _ _,
      modifyCurrent_receiver_of_other _ _ _, ?_⟩
    intro j
    rw [modifyCurrent_current, getAchievement_modify]
    simp
  · simp only [h, if_false]
    exact ⟨rfl, rfl, fun _ => rfl, fun _ => rfl⟩

theorem updateAchievementsProgress_frame (cfg : Config) (w : World) (k : Nat) :
    (updateAchievementsProgress cfg w k).state.receiver.m_variables
        = w.receiver.m_variables ∧
    (updateAchievementsProgress cfg w k).state.other.isSome = w.other.isSome ∧
    (w.other.isSome = true →
      (updateAchievementsProgress cfg w k).state.receiver = w.receiver) ∧
    (∀ j, ((updateAchievementsProgress cfg w k).state.current.getAchievement j).isSome
      = (w.current.getAchievement j).isSome) := by
  unfold updateAchievementsProgress
  cases hu : w.current.getAchievement cfg.ACHIEVE_UNSTOPPABLE with
  | none => exact ⟨rfl, rfl, fun _ => rfl, fun _ => rfl⟩
  | some u =>
    simp only
    have hb := unstoppable_block cfg w u (w.receiver.counter cfg.ACHIEVE_CONS_WON_RACES)
    generalize (if (!u.isAchieved) = true then
        w.modifyCurrent cfg.ACHIEVE_UNSTOPPABLE (fun a =>
          a.reset.increase "wins" "wins" (w.receiver.counter cfg.ACHIEVE_CONS_WON_RACES))
      else w) = w1 at hb ⊢
    split
    · split
      · simp only [Outcome.state]
        refine ⟨?_, ?_, ?_, ?_⟩
        · rw [modifyCurrent_receiver_m_variables]; exact hb.1
        · rw [modifyCurrent_other_isSome]; exact hb.2.1
        · intro h
          rw [modifyCurrent_receiver_of_other _ _ _ (by rw [hb.2.1]; exact h)]
          exact hb.2.2.1 h
        · intro j
          rw [modifyCurrent_current, getAchievement_modify]
          simp only [Option.isSome_map']
          exact hb.2.2.2 j
      · exact hb
    · exact hb

theorem updateAchievementsProgress_isOk_iff (cfg : Config) (w : World) (k : Nat) :
    (updateAchievementsProgress cfg w k).isOk = true ↔
      ((w.current.getAchievement cfg.ACHIEVE_GOLD_DRIVER).isSome = true ∧
        (w.current.getAchievement cfg.ACHIEVE_UNSTOPPABLE).isSome = true) := by
  unfold updateAchievementsProgress
  cases hu : w.current.getAchievement cfg.ACHIEVE_UNSTOPPABLE with
  | none => simp [Outcome.isOk]
  | some u =>
    cases hg : w.current.getAchievement cfg.ACHIEVE_GOLD_DRIVER with
    | none => simp [Outcome.isOk]
    | some g =>
      simp only
      have hb := (unstoppable_block cfg w u
        (w.receiver.counter cfg.ACHIEVE_CONS_WON_RACES)).2.2.2 cfg.ACHIEVE_GOLD_DRIVER
      rw [hg] at hb
      generalize (if (!u.isAchieved) = true then
          w.modifyCurrent cfg.ACHIEVE_UNSTOPPABLE (fun a =>
            a.reset.increase "wins" "wins" (w.receiver.counter cfg.ACHIEVE_CONS_WON_RACES))
        else w) = w1 at hb ⊢
      obtain ⟨g1, hg1⟩ := Option.isSome_iff_exists.mp hb
      rw [hg1]
      simp only [Option.isSome_some, and_self, iff_true]
      split <;> rfl

theorem updateAchievementsProgress_recompute (cfg : Config) (w : World)
    (k : Nat) (u g : Achievement) (hne : cfg.ACHIEVE_GOLD_DRIVER ≠ cfg.ACHIEVE_UNSTOPPABLE)
    (hu : w.current.getAchievement cfg.ACHIEVE_UNSTOPPABLE = some u)
    (hg : w.current.getAchievement cfg.ACHIEVE_GOLD_DRIVER = some g) :
    ∃ w1, updateAchievementsProgress cfg w k = Outcome.ok w1 ∧
      (u.isAchieved = false →
        w1.current.getAchievement cfg.ACHIEVE_UNSTOPPABLE
          = some (u.reset.increase "wins" "wins"
              (w.receiver.counter cfg.ACHIEVE_CONS_WON_RACES))) ∧
      (g.isAchieved = false →
        w1.current.getAchievement cfg.ACHIEVE_GOLD_DRIVER
          = some (((g.reset.increase "standard" "standard"
                (w.receiver.counter cfg.ACHIEVE_WON_NORMAL_RACES)).increase
              "std_timetrial" "std_timetrial"
                (w.receiver.counter cfg.ACHIEVE_WON_TT_RACES)).increase
              "follow_leader" "follow_leader"
                (w.receiver.counter cfg.ACHIEVE_WON_FTL_RACES))) := by
  unfold updateAchievementsProgress
  rw [hu, hg]
  simp only
  have hne2 : cfg.ACHIEVE_UNSTOPPABLE ≠ cfg.ACHIEVE_GOLD_DRIVER := fun h => hne h.symm
  have h1g : (if (!u.isAchieved) = true then
      w.modifyCurrent cfg.ACHIEVE_UNSTOPPABLE (fun a =>
        a.reset.increase "wins" "wins" (w.receiver.counter cfg.ACHIEVE_CONS_WON_RACES))
      else w).current.getAchievement cfg.ACHIEVE_GOLD_DRIVER = some g := by
    split
    · rw [modifyCurrent_current, getAchievement_modify_ne _ _ _ _ hne]; exact hg
    · exact hg
  have h1u : u.isAchieved = false →
      (if (!u.isAchieved) = true then
        w.modifyCurrent cfg.ACHIEVE_UNSTOPPABLE (fun a =>
          a.reset.increase "wins" "wins" (w.receiver.counter cfg.ACHIEVE_CONS_WON_RACES))
        else w).current.getAchievement cfg.ACHIEVE_UNSTOPPABLE
        = some (u.reset.increase "wins" "wins"
            (w.receiver.counter cfg.ACHIEVE_CONS_WON_RACES)) := by
    intro hua
    simp only [hua, Bool.not_false, if_true]
    rw [modifyCurrent_current]
    exact getAchievement_modify_self w.current _ _ u hu
  have h1c : ∀ i, (if (!u.isAchieved) = true then
      w.modifyCurrent cfg.ACHIEVE_UNSTOPPABLE (fun a =>
        a.reset.increase "wins" "wins" (w.receiver.counter cfg.ACHIEVE_CONS_WON_RACES))
      else w).receiver.counter i = w.receiver.counter i := by
    intro i
    split
    · exact modifyCurrent_counter _ _ _ _
    · rfl
  generalize (if (!u.isAchieved) = true then
      w.modifyCurrent cfg.ACHIEVE_UNSTOPPABLE (fun a =>
        a.reset.increase "wins" "wins" (w.receiver.counter cfg.ACHIEVE_CONS_WON_RACES))
      else w) = w1 at h1g h1u h1c ⊢
  rw [h1g]
  simp only
  by_cases hga : g.isAchieved = true
  · simp only [hga, Bool.not_true, Bool.false_eq_true, if_false]
    exact ⟨w1, rfl, h1u, fun h => absurd h (by decide)⟩
  · have hgf : g.isAchieved = false := by simpa using hga
    simp only [hgf, Bool.not_false, if_true]
    refine ⟨_, rfl, ?_, ?_⟩
    · intro hua
      rw [modifyCurrent_current, getAchievement_modify_ne _ _ _ _ hne2]
      exact h1u hua
    · intro _
      rw [modifyCurrent_current, getAchievement_modify_self _ _ _ g h1g, h1c, h1c, h1c]

/-! ## increaseDataVar: return, counters and frame -/

theorem increaseDataVar_isOk_iff (cfg : Config) (w : World) (k : Nat) (d : Int)
    (hk : k < cfg.ACHIEVE_DATA_NUM) :
    (increaseDataVar cfg w k d).isOk = true ↔
      ((w.current.getAchievement cfg.ACHIEVE_GOLD_DRIVER).isSome = true ∧
        (w.current.getAchievement cfg.ACHIEVE_UNSTOPPABLE).isSome = true) := by
  have hiff := updateAchievementsProgress_isOk_iff cfg
    { w with receiver := w.receiver.setCounter k (wrapInt32 (w.receiver.counter k + d)) } k
  rw [current_setCounter, current_setCounter] at hiff
  unfold increaseDataVar
  simp only [hk, if_true]
  cases h : updateAchievementsProgress cfg
      { w with receiver := w.receiver.setCounter k (wrapInt32 (w.receiver.counter k + d)) }
      k with
  | fault s =>
    rw [h] at hiff
    exact hiff
  | ok w2 =>
    rw [h] at hiff
    simp only
    have hok : (if w2.receiver.counter k > 10000000
        then (Outcome.ok { w2 with receiver := w2.receiver.setCounter k 10000000 } :
          Outcome World World)
        else Outcome.ok w2).isOk = true := by
      split <;> rfl
    rw [hok]
    constructor
    · intro _; exact hiff.mp rfl
    · intro _; rfl

theorem increaseDataVar_isOk (cfg : Config) (w : World) (k : Nat) (d : Int)
    (hg : (w.current.getAchievement cfg.ACHIEVE_GOLD_DRIVER).isSome = true)
    (hu : (w.current.getAchievement cfg.ACHIEVE_UNSTOPPABLE).isSome = true) :
    (increaseDataVar cfg w k d).isOk = true := by
  by_cases hk : k < cfg.ACHIEVE_DATA_NUM
  · exact (increaseDataVar_isOk_iff cfg w k d hk).mpr ⟨hg, hu⟩
  · unfold increaseDataVar
    rw [if_neg hk]
    rfl

theorem increaseDataVar_m_variables (cfg : Config) (w : World)
    (k : Nat) (d : Int) (hok : (increaseDataVar cfg w k d).isOk = true) :
    (increaseDataVar cfg w k d).state.receiver.m_variables
      = if k < cfg.ACHIEVE_DATA_NUM then
          w.receiver.m_variables.set k (min (wrapInt32 (w.receiver.counter k + d)) CAP)
        else w.receiver.m_variables := by
  unfold increaseDataVar at hok ⊢
  by_cases hk : k < cfg.ACHIEVE_DATA_NUM
  · simp only [hk, if_true] at hok ⊢
    have hv := (updateAchievementsProgress_frame cfg
      { w with receiver := w.receiver.setCounter k (wrapInt32 (w.receiver.counter k + d)) }
      k).1
    cases h : updateAchievementsProgress cfg
        { w with receiver := w.receiver.setCounter k (wrapInt32 (w.receiver.counter k + d)) }
        k with
    | fault s => rw [h] at hok; simp [Outcome.isOk] at hok
    | ok w2 =>
      rw [h] at hv
      simp only [Outcome.state, setCounter] at hv
      simp only
      rw [← set_clamp, ← hv]
      by_cases hc : w2.receiver.m_variables.getD k 0 > 10000000
      · simp only [counter, hc, if_true, Outcome.state, setCounter]
      · simp only [counter, hc, if_false, Outcome.state]
  · simp [hk, Outcome.state]

theorem increaseDataVar_fault (cfg : Config) (w : World) (k : Nat) (d : Int)
    (hf : (increaseDataVar cfg w k d).isOk = false) :
    k < cfg.ACHIEVE_DATA_NUM ∧
    ∃ s, increaseDataVar cfg w k d = Outcome.fault s ∧
      updateAchievementsProgress cfg
        { w with receiver := w.receiver.setCounter k (wrapInt32 (w.receiver.counter k + d)) }
        k = Outcome.fault s ∧
      s.receiver.m_variables
        = w.receiver.m_variables.set k (wrapInt32 (w.receiver.counter k + d)) := by
  unfold increaseDataVar at hf ⊢
  by_cases hk : k < cfg.ACHIEVE_DATA_NUM
  · simp only [hk, if_true] at hf ⊢
    have hv := (updateAchievementsProgress_frame cfg
      { w with receiver := w.receiver.setCounter k (wrapInt32 (w.receiver.counter k + d)) }
      k).1
    cases h : updateAchievementsProgress cfg
        { w with receiver := w.receiver.setCounter k (wrapInt32 (w.receiver.counter k + d)) }
        k with
    | fault s =>
      rw [h] at hv
      exact ⟨trivial, s, rfl, rfl, hv⟩
    | ok w2 =>
      rw [h] at hf
      simp only at hf
      split at hf <;> simp [Outcome.isOk] at hf
  · simp [hk, Outcome.isOk] at hf

theorem increaseDataVar_frame (cfg : Config) (w : World) (k : Nat) (d : Int) :
    (increaseDataVar cfg w k d).state.other.isSome = w.other.isSome ∧
    (w.other.isSome = true →
      (increaseDataVar cfg w k d).state.receiver.m_achievements
        = w.receiver.m_achievements) ∧
    (∀ j, ((increaseDataVar cfg w k d).state.current.getAchievement j).isSome
      = (w.current.getAchievement j).isSome) := by
  unfold increaseDataVar
  by_cases hk : k < cfg.ACHIEVE_DATA_NUM
  · simp only [hk, if_true]
    have hf := updateAchievementsProgress_frame cfg
      { w with receiver := w.receiver.setCounter k (wrapInt32 (w.receiver.counter k + d)) } k
    have hcur : ∀ (w2 : World) (v : Int) (j : Nat),
        (World.current { w2 with receiver := w2.receiver.setCounter k v }).getAchievement j
          = w2.current.getAchievement j := fun w2 v j => current_setCounter w2 k v j
    cases h : updateAchievementsProgress cfg
        { w with receiver := w.receiver.setCounter k (wrapInt32 (w.receiver.counter k + d)) }
        k with
    | fault s =>
      rw [h] at hf
      simp only [Outcome.state] at hf ⊢
      refine ⟨hf.2.1, ?_, ?_⟩
      · intro ho
        rw [hf.2.2.1 ho]
        rfl
      · intro j
        rw [hf.2.2.2 j, hcur]
    | ok w2 =>
      rw [h] at hf
      simp only [Outcome.state] at hf
      simp only
      split
      · simp only [Outcome.state]
        refine ⟨hf.2.1, ?_, ?_⟩
        · intro ho
          show w2.receiver.m_achievements = w.receiver.m_achievements
          rw [hf.2.2.1 ho]
          rfl
        · intro j
          rw [hcur, hf.2.2.2 j, hcur]
      · simp only [Outcome.state]
        refine ⟨hf.2.1, ?_, ?_⟩
        · intro ho
          rw [hf.2.2.1 ho]
          rfl
        · intro j
          rw [hf.2.2.2 j, hcur]
  · rw [if_neg hk]
    exact ⟨rfl, fun _ => rfl, fun _ => rfl⟩

theorem increaseDataVar_step (cfg : Config) (w : World) (k : Nat) (d : Int)
    (hg : (w.current.getAchievement cfg.ACHIEVE_GOLD_DRIVER).isSome = true)
    (hu : (w.current.getAchievement cfg.ACHIEVE_UNSTOPPABLE).isSome = true) :
    ∃ w1, increaseDataVar cfg w k d = Outcome.ok w1 ∧
      w1.receiver.m_variables = (if k < cfg.ACHIEVE_DATA_NUM then
          w.receiver.m_variables.set k (min (wrapInt32 (w.receiver.counter k + d)) CAP)
        else w.receiver.m_variables) ∧
      (w1.current.getAchievement cfg.ACHIEVE_GOLD_DRIVER).isSome = true ∧
      (w1.current.getAchievement cfg.ACHIEVE_UNSTOPPABLE).isSome = true := by
  have hok := increaseDataVar_isOk cfg w k d hg hu
  have hv := increaseDataVar_m_variables cfg w k d hok
  have hf := (increaseDataVar_frame cfg w k d).2.2
  have h1 := hf cfg.ACHIEVE_GOLD_DRIVER
  have h2 := hf cfg.ACHIEVE_UNSTOPPABLE
  cases h : increaseDataVar cfg w k d with
  | fault s => rw [h] at hok; simp [Outcome.isOk] at hok
  | ok w1 =>
    rw [h] at hv h1 h2
    exact ⟨w1, rfl, hv, by rw [← hg]; exact h1, by rw [← hu]; exact h2⟩

theorem increaseDataVars_invariant (cfg : Config) (calls : List (Nat × Int)) :
    ∀ w : World,
      (w.current.getAchievement cfg.ACHIEVE_GOLD_DRIVER).isSome = true →
      (w.current.getAchievement cfg.ACHIEVE_UNSTOPPABLE).isSome = true →
      (∀ v ∈ w.receiver.m_variables, v ≤ 10000000) →
      ∃ w1, increaseDataVars cfg w calls = Outcome.ok w1 ∧
        w1.receiver.m_variables.length = w.receiver.m_variables.length ∧
        (∀ v ∈ w1.receiver.m_variables, v ≤ 10000000) ∧
        ((∀ v ∈ w.receiver.m_variables, 0 ≤ v) →
          (∀ c ∈ calls, 0 ≤ c.2 ∧ c.2 ≤ 2147483647 - 10000000) →
          ∀ v ∈ w1.receiver.m_variables, 0 ≤ v) := by
  induction calls with
  | nil =>
    intro w _ _ hup
    exact ⟨w, rfl, rfl, hup, fun h _ => h⟩
  | cons c rest ih =>
    intro w hg hu hup
    obtain ⟨w1, hrun, hvars, hg1, hu1⟩ := increaseDataVar_step cfg w c.1 c.2 hg hu
    have hup1 : ∀ v ∈ w1.receiver.m_variables, v ≤ 10000000 := by
      intro v hv
      rw [hvars] at hv
      split at hv
      · rcases List.mem_or_eq_of_mem_set hv with h | h
        · exact hup v h
        · rw [h]; exact min_le_right _ _
      · exact hup v hv
    have hlen1 : w1.receiver.m_variables.length = w.receiver.m_variables.length := by
      rw [hvars]; split <;> simp
    obtain ⟨w2, hrun2, hlen2, hup2, hlo2⟩ := ih w1 hg1 hu1 hup1
    refine ⟨w2, ?_, by rw [hlen2, hlen1], hup2, ?_⟩
    · simp only [increaseDataVars, hrun]
      exact hrun2
    · intro hlo hd
      apply hlo2
      · intro v hv
        rw [hvars] at hv
        split at hv
        · rcases List.mem_or_eq_of_mem_set hv with h | h
          · exact hlo v h
          · have hc := counter_bounds w.receiver c.1 0 10000000 (le_refl _) (by norm_num)
              (fun x hx => ⟨hlo x hx, hup x hx⟩)
            have hdc := hd c (List.mem_cons_self _ _)
            have hw : wrapInt32 (w.receiver.counter c.1 + c.2)
                = w.receiver.counter c.1 + c.2 :=
              wrapInt32_of_range _ (by omega) (by omega)
            rw [h, hw]
            exact le_min (by omega) (by norm_num [CAP])
        · exact hlo v hv
      · intro c2 hc2
        exact hd c2 (List.mem_cons_of_mem _ hc2)

/-- C1 (amended). Starting from a receiver whose counters are all 0 (as the
constructor leaves them), with the gold-driver and unstoppable achievements
registered in the current player's status (the receiver itself when the calls
are made on the current player's status), every finite sequence of
increaseDataVar calls on the receiver, with arbitrary indices and arbitrary
deltas, returns after each call with ACHIEVE_DATA_NUM counters that are all at
most 10,000,000; they are also all at least 0 as long as every delta passed so
far lies between 0 and 2,147,483,647 - 10,000,000 (non-negative, no signed
overflow of the addition). -/
theorem increaseDataVars_clamped (cfg : Config) (w0 : World)
    (hzero : w0.receiver.m_variables = List.replicate cfg.ACHIEVE_DATA_NUM 0)
    (hg : (w0.current.getAchievement cfg.ACHIEVE_GOLD_DRIVER).isSome = true)
    (hu : (w0.current.getAchievement cfg.ACHIEVE_UNSTOPPABLE).isSome = true)
    (calls : List (Nat × Int)) (n : Nat) :
    ∃ w, increaseDataVars cfg w0 (calls.take n) = Outcome.ok w ∧
      w.receiver.m_variables.length = cfg.ACHIEVE_DATA_NUM ∧
      (∀ v ∈ w.receiver.m_variables, v ≤ 10000000) ∧
      ((∀ c ∈ calls.take n, 0 ≤ c.2 ∧ c.2 ≤ 2147483647 - 10000000) →
        ∀ v ∈ w.receiver.m_variables, 0 ≤ v) := by
  have hz : ∀ v ∈ w0.receiver.m_variables, v = 0 := by
    intro v hv; rw [hzero] at hv; exact List.eq_of_mem_replicate hv
  obtain ⟨w, hrun, hlen, hup, hlo⟩ := increaseDataVars_invariant cfg (calls.take n) w0 hg hu
    (fun v hv => by rw [hz v hv]; norm_num)
  refine ⟨w, hrun, ?_, hup, hlo (fun v hv => by rw [hz v hv])⟩
  rw [hlen, hzero, List.length_replicate]

/-- Witness for C1 (amended): two increases of counter 1 on the fresh example
status, which is the current player's status, the first reaching the cap. -/
theorem increaseDataVars_clamped_witness :
    ((World.onCurrent freshBoth).receiver.m_variables
        = List.replicate exampleConfig.ACHIEVE_DATA_NUM 0 ∧
      ((World.onCurrent freshBoth).current.getAchievement
        exampleConfig.ACHIEVE_GOLD_DRIVER).isSome = true ∧
      ((World.onCurrent freshBoth).current.getAchievement
        exampleConfig.ACHIEVE_UNSTOPPABLE).isSome = true) ∧
    ∃ w, increaseDataVars exampleConfig (World.onCurrent freshBoth)
        ([(1, 10000000), (1, 5)].take 2) = Outcome.ok w ∧
      w.receiver.m_variables.length = exampleConfig.ACHIEVE_DATA_NUM ∧
      (∀ v ∈ w.receiver.m_variables, v ≤ 10000000) ∧
      ((∀ c ∈ [((1 : Nat), (10000000 : Int)), (1, 5)].take 2,
          0 ≤ c.2 ∧ c.2 ≤ 2147483647 - 10000000) →
        ∀ v ∈ w.receiver.m_variables, 0 ≤ v) :=
  ⟨⟨by decide, by decide, by decide⟩,
    increaseDataVars_clamped exampleConfig (World.onCurrent freshBoth)
      (by decide) (by decide) (by decide) [(1, 10000000), (1, 5)] 2⟩

/-- Counterexample to C1 as stated: on the fresh example status with both
achievements registered, called as the current player's status,
increaseDataVar(1, -1) returns and leaves counter 1 at the value -1, below 0.
And when the same fresh status is not the current player's status and the
current one has no achievement registered, increaseDataVar(1, 20000000) does not
return: the recomputation faults with counter 1 at 20,000,000, above the cap. -/
theorem increaseDataVars_negative_counterexample :
    ((increaseDataVars exampleConfig (World.onCurrent freshBoth) [(1, -1)]).isOk = true ∧
      (increaseDataVars exampleConfig (World.onCurrent freshBoth)
        [(1, -1)]).state.receiver.m_variables = [0, -1, 0, 0, 0, 0] ∧
      ¬ (0 ≤ (increaseDataVars exampleConfig (World.onCurrent freshBoth)
        [(1, -1)]).state.receiver.counter 1)) ∧
    ((freshBoth.getAchievement exampleConfig.ACHIEVE_GOLD_DRIVER).isSome = true ∧
      (freshBoth.getAchievement exampleConfig.ACHIEVE_UNSTOPPABLE).isSome = true ∧
      (increaseDataVars exampleConfig
        (World.onOther freshBoth (ctor exampleConfig)) [(1, 20000000)]).isOk = false ∧
      (increaseDataVars exampleConfig
        (World.onOther freshBoth (ctor exampleConfig))
        [(1, 20000000)]).state.receiver.m_variables = [0, 20000000, 0, 0, 0, 0]) := by
  decide

/-! ## Counter operations: invalid ids and the postcondition of an increase -/

/-- C11. For a counter id that is not below ACHIEVE_DATA_NUM, increaseDataVar
(with any delta, on any receiver, whatever the current player's status is)
returns with the receiver and the current player's status as they were, and
resetDataVar leaves the status as it was: counters, achievements with their goal
state and achieved flag, and the registry are all unchanged, and no rule
recomputation is run. -/
theorem invalid_id_noop (cfg : Config) (w : World) (k : Nat) (d : Int)
    (hk : cfg.ACHIEVE_DATA_NUM ≤ k) :
    increaseDataVar cfg w k d = Outcome.ok w ∧
    resetDataVar cfg w.receiver k = w.receiver := by
  have h : ¬ k < cfg.ACHIEVE_DATA_NUM := not_lt.mpr hk
  constructor
  · unfold increaseDataVar
    rw [if_neg h]
  · unfold resetDataVar
    rw [if_neg h]

/-- Witness for C11: counter id 6 with six counters, on a status in which no
counter-derived achievement is registered (a recomputation would fault), called
as the current player's status and as another one. -/
theorem invalid_id_noop_witness :
    exampleConfig.ACHIEVE_DATA_NUM ≤ 6 ∧
    (increaseDataVar exampleConfig (World.onCurrent eventStatus) 6 3
        = Outcome.ok (World.onCurrent eventStatus) ∧
      resetDataVar exampleConfig eventStatus 6 = eventStatus) ∧
    increaseDataVar exampleConfig (World.onOther eventStatus freshBoth) 6 3
      = Outcome.ok (World.onOther eventStatus freshBoth) :=
  ⟨by decide, invalid_id_noop exampleConfig (World.onCurrent eventStatus) 6 3 (by decide),
    (invalid_id_noop exampleConfig (World.onOther eventStatus freshBoth) 6 3
      (by decide)).1⟩

/-- C13 (amended). For a receiver with ACHIEVE_DATA_NUM counters, when both
counter-derived achievements are registered in the current player's status (the
receiver itself when the call is made on the current player's status), an
in-range index k whose stored value c lies in [0, 10,000,000] and a delta d at
least 0 with c + d at most 2,147,483,647: increaseDataVar(k, d) returns, counter
k of the receiver is then min(c + d, 10,000,000) and every other counter is
unchanged. -/
theorem increaseDataVar_post (cfg : Config) (w : World) (k : Nat) (d : Int)
    (hg : (w.current.getAchievement cfg.ACHIEVE_GOLD_DRIVER).isSome = true)
    (hu : (w.current.getAchievement cfg.ACHIEVE_UNSTOPPABLE).isSome = true)
    (hlen : w.receiver.m_variables.length = cfg.ACHIEVE_DATA_NUM)
    (hk : k < cfg.ACHIEVE_DATA_NUM)
    (hc0 : 0 ≤ w.receiver.counter k) (hc1 : w.receiver.counter k ≤ 10000000)
    (hd : 0 ≤ d) (hov : w.receiver.counter k + d ≤ 2147483647) :
    ∃ w1, increaseDataVar cfg w k d = Outcome.ok w1 ∧
      w1.receiver.counter k = min (w.receiver.counter k + d) 10000000 ∧
      (∀ i, i ≠ k → w1.receiver.counter i = w.receiver.counter i) ∧
      w1.receiver.m_variables.length = w.receiver.m_variables.length := by
  obtain ⟨w1, hrun, hvars, _, _⟩ := increaseDataVar_step cfg w k d hg hu
  rw [if_pos hk, wrapInt32_of_range _ (by omega) hov] at hvars
  refine ⟨w1, hrun, ?_, ?_, ?_⟩
  · unfold counter at *
    rw [hvars]
    exact getD_set_self _ _ _ (by rw [hlen]; exact hk)
  · intro i hi
    unfold counter
    rw [hvars]
    exact getD_set_ne _ _ _ _ hi
  · rw [hvars]; simp

/-- Witness for C13 (amended): counter 1 of the example status, which is the
current player's status, stands at 9,999,998 and is raised by 5. -/
theorem increaseDataVar_post_witness :
    (((World.onCurrent capStatus).current.getAchievement
        exampleConfig.ACHIEVE_GOLD_DRIVER).isSome = true ∧
      ((World.onCurrent capStatus).current.getAchievement
        exampleConfig.ACHIEVE_UNSTOPPABLE).isSome = true ∧
      capStatus.m_variables.length = exampleConfig.ACHIEVE_DATA_NUM ∧
      1 < exampleConfig.ACHIEVE_DATA_NUM ∧
      0 ≤ capStatus.counter 1 ∧ capStatus.counter 1 ≤ 10000000 ∧
      (0 : Int) ≤ 5 ∧ capStatus.counter 1 + 5 ≤ 2147483647) ∧
    (∃ w1, increaseDataVar exampleConfig (World.onCurrent capStatus) 1 5 = Outcome.ok w1 ∧
      w1.receiver.counter 1 = min (capStatus.counter 1 + 5) 10000000 ∧
      (∀ i, i ≠ 1 → w1.receiver.counter i = capStatus.counter i) ∧
      w1.receiver.m_variables.length = capStatus.m_variables.length) ∧
    capStatus.counter 1 = 9999998 ∧
    (increaseDataVar exampleConfig (World.onCurrent capStatus) 1 5).state.receiver.m_variables
      = [0, 10000000, 0, 0, 0, 0] :=
  ⟨by decide,
    increaseDataVar_post exampleConfig (World.onCurrent capStatus) 1 5 (by decide)
      (by decide) (by decide) (by decide) (by decide) (by decide) (by decide) (by decide),
    by decide, by decide⟩

/-- Counterexample to C13 as stated: the example status has both counter-derived
achievements registered and counter 1 at 9,999,998, but it is not the current
player's status, and the current one has no achievement registered.
increaseDataVar(1, 5) does not return: the recomputation dereferences the absent
unstoppable of the current status, with counter 1 of the receiver at 10,000,003
and not min(9,999,998 + 5, 10,000,000). -/
theorem increaseDataVar_post_counterexample :
    (capStatus.getAchievement exampleConfig.ACHIEVE_GOLD_DRIVER).isSome = true ∧
    (capStatus.getAchievement exampleConfig.ACHIEVE_UNSTOPPABLE).isSome = true ∧
    capStatus.counter 1 = 9999998 ∧
    (increaseDataVar exampleConfig
      (World.onOther capStatus (ctor exampleConfig)) 1 5).isOk = false ∧
    (increaseDataVar exampleConfig
      (World.onOther capStatus (ctor exampleConfig)) 1 5).state.receiver.counter 1
      = 10000003 ∧
    ¬ ((increaseDataVar exampleConfig
      (World.onOther capStatus (ctor exampleConfig)) 1 5).state.receiver.counter 1
      = min (capStatus.counter 1 + 5) 10000000) := by
  decide

/-! ## The precondition of increaseDataVar -/

/-- C17 (amended). For an in-range counter index, increaseDataVar returns (no
absent achievement is dereferenced) if and only if both the gold-driver and the
unstoppable achievement are registered in the status that
PlayerManager::getCurrentAchievementsStatus() returns (the receiver itself when
the call is made on the current player's status); when it does not return, the
rule recomputation has faulted on an achievement absent there, and in the state
reached the counter of the receiver already holds the (wrapped) sum of its old
value and the delta, every other counter being as before. -/
theorem increaseDataVar_needs_both (cfg : Config) (w : World)
    (k : Nat) (d : Int) (hk : k < cfg.ACHIEVE_DATA_NUM) :
    ((increaseDataVar cfg w k d).isOk = true ↔
      ((w.current.getAchievement cfg.ACHIEVE_GOLD_DRIVER).isSome = true ∧
        (w.current.getAchievement cfg.ACHIEVE_UNSTOPPABLE).isSome = true)) ∧
    ((increaseDataVar cfg w k d).isOk = false →
      ∃ s, increaseDataVar cfg w k d = Outcome.fault s ∧
        updateAchievementsProgress cfg
          { w with receiver :=
              w.receiver.setCounter k (wrapInt32 (w.receiver.counter k + d)) } k
          = Outcome.fault s ∧
        s.receiver.m_variables
          = w.receiver.m_variables.set k (wrapInt32 (w.receiver.counter k + d))) :=
  ⟨increaseDataVar_isOk_iff cfg w k d hk, fun hf => (increaseDataVar_fault cfg w k d hf).2⟩

/-- Witness for C17 (amended): with only the gold driver registered in the
current player's status, increaseDataVar(1, 5) faults with counter 1 already at
5; with only unstoppable registered it faults as well; with both it returns. -/
theorem increaseDataVar_needs_both_witness :
    1 < exampleConfig.ACHIEVE_DATA_NUM ∧
    (∃ s, increaseDataVar exampleConfig (World.onCurrent freshGoldOnly) 1 5
        = Outcome.fault s ∧
      updateAchievementsProgress exampleConfig
        { World.onCurrent freshGoldOnly with
            receiver := (World.onCurrent freshGoldOnly).receiver.setCounter 1
              (wrapInt32 ((World.onCurrent freshGoldOnly).receiver.counter 1 + 5)) } 1
          = Outcome.fault s ∧
      s.receiver.m_variables = (World.onCurrent freshGoldOnly).receiver.m_variables.set 1
        (wrapInt32 ((World.onCurrent freshGoldOnly).receiver.counter 1 + 5))) ∧
    increaseDataVar exampleConfig (World.onCurrent freshGoldOnly) 1 5
      = Outcome.fault
          (World.onCurrent { freshGoldOnly with m_variables := [0, 5, 0, 0, 0, 0] }) ∧
    (increaseDataVar exampleConfig (World.onCurrent freshUnstoppableOnly) 1 5).isOk
      = false ∧
    (increaseDataVar exampleConfig (World.onCurrent freshBoth) 1 5).isOk = true :=
  ⟨by decide,
    (increaseDataVar_needs_both exampleConfig (World.onCurrent freshGoldOnly) 1 5
      (by decide)).2 (by decide),
    by decide, by decide,
    (increaseDataVar_needs_both exampleConfig (World.onCurrent freshBoth) 1 5
      (by decide)).1.mpr (by decide)⟩

/-- Counterexample to C17 as stated: a receiver in which neither achievement is
registered, while both are registered in the current player's status:
increaseDataVar(1, 5) returns.  And a receiver in which both are registered,
while the current player's status has none: increaseDataVar(1, 5) faults. -/
theorem increaseDataVar_needs_both_counterexample :
    (((ctor exampleConfig).getAchievement exampleConfig.ACHIEVE_GOLD_DRIVER).isSome = false ∧
      ((ctor exampleConfig).getAchievement exampleConfig.ACHIEVE_UNSTOPPABLE).isSome
        = false ∧
      (increaseDataVar exampleConfig
        (World.onOther (ctor exampleConfig) freshBoth) 1 5).isOk = true) ∧
    ((freshBoth.getAchievement exampleConfig.ACHIEVE_GOLD_DRIVER).isSome = true ∧
      (freshBoth.getAchievement exampleConfig.ACHIEVE_UNSTOPPABLE).isSome = true ∧
      (increaseDataVar exampleConfig
        (World.onOther freshBoth (ctor exampleConfig)) 1 5).isOk = false) := by
  decide

/-! ## Rule recomputation and the achievements -/

/-- C7 (amended). With both counter-derived achievements registered, under
different ids, in the current player's status (the receiver itself when the call
is made on the current player's status), increaseDataVar on an in-range counter
returns, and each of the two that was not achieved before the call has been
reset and then given, for each of its goals, the value the contributing counter
of the receiver has when the rules run: after the delta was added and before the
changed counter is clamped to 10,000,000.  These amounts are the values stored
after the call for every counter other than the changed one, and for the changed
one as well unless its sum exceeded 10,000,000.  The achievements registered in
a receiver that is not the current player's status are left as they were. -/
theorem increaseDataVar_recompute (cfg : Config) (w : World)
    (k : Nat) (d : Int) (u g : Achievement)
    (hne : cfg.ACHIEVE_GOLD_DRIVER ≠ cfg.ACHIEVE_UNSTOPPABLE)
    (hk : k < cfg.ACHIEVE_DATA_NUM)
    (hu : w.current.getAchievement cfg.ACHIEVE_UNSTOPPABLE = some u)
    (hg : w.current.getAchievement cfg.ACHIEVE_GOLD_DRIVER = some g) :
    ∃ w1, increaseDataVar cfg w k d = Outcome.ok w1 ∧
      (u.isAchieved = false →
        w1.current.getAchievement cfg.ACHIEVE_UNSTOPPABLE
          = some (u.reset.increase "wins" "wins"
              ((w.receiver.setCounter k (wrapInt32 (w.receiver.counter k + d))).counter
                cfg.ACHIEVE_CONS_WON_RACES))) ∧
      (g.isAchieved = false →
        w1.current.getAchievement cfg.ACHIEVE_GOLD_DRIVER
          = some (((g.reset.increase "standard" "standard"
                ((w.receiver.setCounter k (wrapInt32 (w.receiver.counter k + d))).counter
                  cfg.ACHIEVE_WON_NORMAL_RACES)).increase
              "std_timetrial" "std_timetrial"
                ((w.receiver.setCounter k (wrapInt32 (w.receiver.counter k + d))).counter
                  cfg.ACHIEVE_WON_TT_RACES)).increase
              "follow_leader" "follow_leader"
                ((w.receiver.setCounter k (wrapInt32 (w.receiver.counter k + d))).counter
                  cfg.ACHIEVE_WON_FTL_RACES))) ∧
      (∀ i, i ≠ k ∨ wrapInt32 (w.receiver.counter k + d) ≤ 10000000 →
        (w.receiver.setCounter k (wrapInt32 (w.receiver.counter k + d))).counter i
          = w1.receiver.counter i) ∧
      (w.other.isSome = true → w1.receiver.m_achievements = w.receiver.m_achievements) := by
  obtain ⟨w2, hrun, hu2, hg2⟩ := updateAchievementsProgress_recompute cfg
    { w with receiver := w.receiver.setCounter k (wrapInt32 (w.receiver.counter k + d)) }
    k u g hne (by rw [current_setCounter]; exact hu) (by rw [current_setCounter]; exact hg)
  have hok := increaseDataVar_isOk cfg w k d (by rw [hg]; rfl) (by rw [hu]; rfl)
  have hvars := increaseDataVar_m_variables cfg w k d hok
  have hfr := (increaseDataVar_frame cfg w k d).2.1
  simp only [hk, if_true] at hvars
  have hst : ∃ w1, increaseDataVar cfg w k d = Outcome.ok w1 ∧
      ∀ j, w1.current.getAchievement j = w2.current.getAchievement j := by
    unfold increaseDataVar
    simp only [hk, if_true, hrun]
    split
    · exact ⟨_, rfl, fun j => current_setCounter w2 k _ j⟩
    · exact ⟨_, rfl, fun _ => rfl⟩
  obtain ⟨w1, hw1, hget⟩ := hst
  rw [hw1] at hvars hfr
  simp only [Outcome.state] at hvars hfr
  refine ⟨w1, hw1, ?_, ?_, ?_, hfr⟩
  · intro h; rw [hget]; exact hu2 h
  · intro h; rw [hget]; exact hg2 h
  · intro i hi
    unfold counter setCounter
    simp only
    rw [hvars]
    rcases hi with hik | hle
    · simp only [List.getD_eq_getElem?_getD, List.getElem?_set]
      have : ¬ k = i := fun e => hik e.symm
      simp [this]
    · rw [min_eq_left (by simpa [CAP] using hle)]
      rfl

/-- Witness for C7 (amended): the third call
increaseDataVar(ACHIEVE_WON_NORMAL_RACES, 1) from all-zero counters, on the
current player's status; the goal standard of the gold driver ends at 3. -/
theorem increaseDataVar_recompute_witness :
    (exampleConfig.ACHIEVE_GOLD_DRIVER ≠ exampleConfig.ACHIEVE_UNSTOPPABLE ∧
      1 < exampleConfig.ACHIEVE_DATA_NUM ∧
      (World.onCurrent afterTwoWins).current.getAchievement exampleConfig.ACHIEVE_UNSTOPPABLE
        = some { unstoppable5 with progress := [("wins", 0)] } ∧
      (World.onCurrent afterTwoWins).current.getAchievement exampleConfig.ACHIEVE_GOLD_DRIVER
        = some { goldDriver3 with
            progress := [("standard", 2), ("std_timetrial", 0), ("follow_leader", 0)] }) ∧
    (∃ w1, increaseDataVar exampleConfig (World.onCurrent afterTwoWins) 1 1 = Outcome.ok w1 ∧
      (Achievement.isAchieved { unstoppable5 with progress := [("wins", 0)] } = false →
        w1.current.getAchievement exampleConfig.ACHIEVE_UNSTOPPABLE
          = some (Achievement.increase
              (Achievement.reset { unstoppable5 with progress := [("wins", 0)] })
              "wins" "wins"
              ((afterTwoWins.setCounter 1 (wrapInt32 (afterTwoWins.counter 1 + 1))).counter
                exampleConfig.ACHIEVE_CONS_WON_RACES))) ∧
      (Achievement.isAchieved { goldDriver3 with
            progress := [("standard", 2), ("std_timetrial", 0), ("follow_leader", 0)] }
          = false →
        w1.current.getAchievement exampleConfig.ACHIEVE_GOLD_DRIVER
          = some (((Achievement.increase
              (Achievement.reset { goldDriver3 with
                progress := [("standard", 2), ("std_timetrial", 0), ("follow_leader", 0)] })
              "standard" "standard"
                ((afterTwoWins.setCounter 1 (wrapInt32 (afterTwoWins.counter 1 + 1))).counter
                  exampleConfig.ACHIEVE_WON_NORMAL_RACES)).increase
              "std_timetrial" "std_timetrial"
                ((afterTwoWins.setCounter 1 (wrapInt32 (afterTwoWins.counter 1 + 1))).counter
                  exampleConfig.ACHIEVE_WON_TT_RACES)).increase
              "follow_leader" "follow_leader"
                ((afterTwoWins.setCounter 1 (wrapInt32 (afterTwoWins.counter 1 + 1))).counter
                  exampleConfig.ACHIEVE_WON_FTL_RACES))) ∧
      (∀ i, i ≠ 1 ∨ wrapInt32 (afterTwoWins.counter 1 + 1) ≤ 10000000 →
        (afterTwoWins.setCounter 1 (wrapInt32 (afterTwoWins.counter 1 + 1))).counter i
          = w1.receiver.counter i) ∧
      ((World.onCurrent afterTwoWins).other.isSome = true →
        w1.receiver.m_achievements = afterTwoWins.m_achievements)) ∧
    (afterThreeWins.getAchievement 6).map (fun a => a.getProgress "standard") = some 3 :=
  ⟨by decide,
    increaseDataVar_recompute exampleConfig (World.onCurrent afterTwoWins) 1 1
      { unstoppable5 with progress := [("wins", 0)] }
      { goldDriver3 with
        progress := [("standard", 2), ("std_timetrial", 0), ("follow_leader", 0)] }
      (by decide) (by decide) (by decide) (by decide),
    by decide⟩

/-- Counterexample to C7 as stated: with counter ACHIEVE_WON_NORMAL_RACES at
10,000,000 and the gold driver not achieved, increaseDataVar(1, 1) on the
current player's status gives the goal standard the amount 10,000,001, while
the value stored in the counter after the call is 10,000,000.  And on a
receiver that is not the current player's status, increaseDataVar(1, 1) leaves
the receiver's own gold driver, not achieved, without any goal progress: the
gold driver of the current player's status is the one that is reset and given
the receiver's counter. -/
theorem increaseDataVar_recompute_counterexample :
    ((increaseDataVars exampleConfig (World.onCurrent freshFull)
        [(1, 10000000)]).isOk = true ∧
      ((increaseDataVars exampleConfig (World.onCurrent freshFull)
        [(1, 10000000)]).state.receiver.getAchievement 6).map
        Achievement.isAchieved = some false ∧
      (increaseDataVars exampleConfig (World.onCurrent freshFull)
        [(1, 10000000), (1, 1)]).isOk = true ∧
      (increaseDataVars exampleConfig (World.onCurrent freshFull)
        [(1, 10000000), (1, 1)]).state.receiver.counter 1 = 10000000 ∧
      ((increaseDataVars exampleConfig (World.onCurrent freshFull)
          [(1, 10000000), (1, 1)]).state.receiver.getAchievement 6).map
        (fun a => a.getProgress "standard") = some 10000001) ∧
    ((increaseDataVar exampleConfig (World.onOther freshFull freshBoth) 1 1).isOk = true ∧
      (freshFull.getAchievement 6).map Achievement.isAchieved = some false ∧
      ((increaseDataVar exampleConfig (World.onOther freshFull freshBoth)
          1 1).state.receiver.getAchievement 6).map (fun a => a.progress) = some [] ∧
      (increaseDataVar exampleConfig (World.onOther freshFull freshBoth)
          1 1).state.receiver.counter 1 = 1 ∧
      ((increaseDataVar exampleConfig (World.onOther freshFull freshBoth)
          1 1).state.current.getAchievement 6).map (fun a => a.getProgress "standard")
        = some 1) := by
  decide

end STK
